import Mathlib

/-!
# okex client: WebSocket push routing and REST request signing

A shallow embedding of `api/ws/public.go`, `api/ws/private.go`, `api/rest/client.go`
(`Do`, `Status`, `sign`, `decode`), `api/rest/sub_account.go`,
`api/rest/trade_data.go` and `responses/responses.go`.

* A Go channel is a cell of a heap: it has an identity (`Sink`), a capacity and a
  queue of the values sent and not yet taken. The element type of the channel
  (`chan *public.Tickers`, ...) is the first index of the heap, so two channels of
  different element types are never the same cell, as in Go.
* A send `ch <- v` completes when the channel has room and otherwise parks the
  sender: a call of `Process` either returns or is `blocked` in its send.
* A method with a pointer receiver takes the struct and returns it.
* `json.Unmarshal`, `okex.S2M`, `ClientWs.Subscribe`, `ClientWs.Unsubscribe`, the
  clock, `crypto/hmac`, `crypto/sha256` and `encoding/base64` are outside the
  embedded files and are parameters; so are `net/http`, `url.QueryEscape`, the URL
  parser and the JSON encoder and decoder of the REST client.
* `Time.Format` is modelled for the fields of the one layout `sign` uses.
-/

namespace Okex

/-! ## Go values -/

/-- Byte strings (`[]byte`). -/
abbrev Bytes := List Nat

/-- The map `map[string]string`, as an association list. -/
abbrev Params := List (String × String)

/-- The read `m[k]` of a Go map: the zero value `""` when the key is absent. -/
def Params.get (m : Params) (k : String) : String :=
  (m.lookup k).getD ""

/-- The write `m[k] = v` of a Go map. -/
def Params.set (m : Params) (k v : String) : Params :=
  (k, v) :: m.filter (fun kv => kv.1 != k)

/-- The function `strings.Contains` on lists of characters. -/
def containsChars : List Char → List Char → Bool
  | [], sub => sub.isEmpty
  | c :: cs, sub => sub.isPrefixOf (c :: cs) || containsChars cs sub

/-- The function `strings.Contains(s, substr)`. -/
def stringsContains (s substr : String) : Bool :=
  containsChars s.data substr.data

/-- The function `fmt.Sprint` at a string operand: the string itself. -/
def fmtSprint (s : String) : String := s

/-! ## Channels -/

/-- Identity of a channel value (`chan T` is a reference). -/
abbrev Sink := Nat

/-- State of one Go channel as a sender sees it: `queue` holds the values sent and
not yet taken by the consumer, oldest first; `cap` is the number of values the
channel accepts before a sender has to wait. -/
structure Chan (Val : Type) where
  cap : Nat
  queue : List Val

/-- The channels of the program, by element type `K` and identity. -/
abbrev Heap (K Val : Type) := K → Sink → Chan Val

/-- A channel on which a send has to wait. -/
def Chan.full {Val : Type} (c : Chan Val) : Bool :=
  decide (c.cap ≤ c.queue.length)

/-- The heap after value `v` entered channel `c` of element type `k`. -/
def Heap.push {K Val : Type} [DecidableEq K] (h : Heap K Val) (k : K) (c : Sink) (v : Val) :
    Heap K Val :=
  fun k2 c2 =>
    if k2 = k ∧ c2 = c then
      { cap := (h k c).cap, queue := (h k c).queue ++ [v] }
    else h k2 c2

/-- What a call of `Process` does: it returns `ok` with the receiver `s` and the
channels `h`, or it is parked in a channel send and has not returned. -/
inductive Outcome (S K Val : Type) where
  | returned (ok : Bool) (s : S) (h : Heap K Val)
  | blocked

/-- The statement pair `ch <- v; return true`: a Go send completes when the channel
has room and otherwise waits for the consumer. -/
def sendReturnTrue {S K Val : Type} [DecidableEq K] (s : S) (h : Heap K Val) (k : K) (c : Sink)
    (v : Val) : Outcome S K Val :=
  if (h k c).full then Outcome.blocked else Outcome.returned true s (h.push k c v)

/-- The body shared by every case of `Process`:
```
if p.xCh == nil { return false }
e := new(T); err := json.Unmarshal(data, e)
if err != nil { return false }
p.xCh <- e
return true
```
with `T` the element type `k` and `p.xCh` the field value `sink`. The cases
`"account"` and `"candle"` pass `&e` to `json.Unmarshal`; the frame is a JSON object,
for which the decoder fills the same struct through either pointer. -/
def deliver {S K Val : Type} [DecidableEq K] (unmarshal : K → Bytes → Option Val) (s : S)
    (h : Heap K Val) (k : K) (sink : Option Sink) (data : Bytes) : Outcome S K Val :=
  match sink with
  | none => Outcome.returned false s h
  | some c =>
    match unmarshal k data with
    | none => Outcome.returned false s h
    | some v => sendReturnTrue s h k c v

/-! ## Inbound frames -/

/-- Modelled from the spec: the type `events.Basic` is declared outside the embedded
files. The inbound envelope carries an optional `event` string, an optional `arg`
(a mapping from string to string, `nil` when `none`) and the list `data` of raw
payloads (a `nil` slice is the empty list). -/
structure Basic where
  Event : String
  Arg : Option Params
  Data : List Bytes

/-- The frame guard `e.Event == "" && e.Arg != nil && e.Data != nil && len(e.Data) > 0`. -/
def Basic.isPush (e : Basic) : Bool :=
  e.Event == "" && e.Arg.isSome && e.Data != [] && decide (e.Data.length > 0)

/-- The lookup `e.Arg.Get("channel")` on a non-nil `arg`; `none` is `ok == false`. -/
def Basic.channel (e : Basic) : Option String :=
  match e.Arg with
  | none => none
  | some a => a.lookup "channel"

/-! ## Private channels (`api/ws/private.go`) -/

/-- Element types of the private sinks: `private.Account`, `private.Position`,
`private.BalanceAndPosition`, `private.Order`. -/
inductive PrivKind where
  | Account | Position | BalanceAndPosition | Order
  deriving DecidableEq, Repr

/-- The struct `Private`: one sink field per family, `none` for `nil`. -/
structure Private where
  aCh : Option Sink
  pCh : Option Sink
  bnpCh : Option Sink
  oCh : Option Sink
  deriving DecidableEq, Repr

/-- The constructor `NewPrivate`: every sink is `nil`. -/
def NewPrivate : Private :=
  { aCh := none, pCh := none, bnpCh := none, oCh := none }

/-- The method `Private.Process`. -/
def Private.Process {Val : Type} (unmarshal : PrivKind → Bytes → Option Val) (p : Private)
    (h : Heap PrivKind Val) (data : Bytes) (e : Basic) : Outcome Private PrivKind Val :=
  if e.Event == "" && e.Arg.isSome && e.Data != [] && decide (e.Data.length > 0) then
    match e.channel with
    | none => Outcome.returned false p h
    | some ch =>
      if ch = "account" then deliver unmarshal p h PrivKind.Account p.aCh data
      else if ch = "positions" then deliver unmarshal p h PrivKind.Position p.pCh data
      else if ch = "balance_and_position" then
        deliver unmarshal p h PrivKind.BalanceAndPosition p.bnpCh data
      else if ch = "orders" then deliver unmarshal p h PrivKind.Order p.oCh data
      else Outcome.returned false p h
  else Outcome.returned false p h

/-! ## Public channels (`api/ws/public.go`) -/

/-- Element types of the public sinks, one per field of `Public`. -/
inductive PubKind where
  | Instruments | Tickers | OpenInterest | Candlesticks | Trades
  | EstimatedDeliveryExercisePrice | MarkPrice | MarkPriceCandlesticks | PriceLimit
  | OrderBook | OPTIONSummary | FundingRate | IndexCandlesticks | IndexTickers
  deriving DecidableEq, Repr

/-- The struct `Public`: one sink field per family, `none` for `nil`. -/
structure Public where
  iCh : Option Sink
  tCh : Option Sink
  oiCh : Option Sink
  cCh : Option Sink
  trCh : Option Sink
  edepCh : Option Sink
  mpCh : Option Sink
  mpcCh : Option Sink
  plCh : Option Sink
  obCh : Option Sink
  osCh : Option Sink
  frCh : Option Sink
  icCh : Option Sink
  itCh : Option Sink
  deriving DecidableEq, Repr

/-- The constructor `NewPublic`: every sink is `nil`. -/
def NewPublic : Public :=
  { iCh := none, tCh := none, oiCh := none, cCh := none, trCh := none, edepCh := none,
    mpCh := none, mpcCh := none, plCh := none, obCh := none, osCh := none, frCh := none,
    icCh := none, itCh := none }

/-- The method `Public.Process`. The cases of the `switch` are tried from top to
bottom; `default` holds the four substring tests. -/
def Public.Process {Val : Type} (unmarshal : PubKind → Bytes → Option Val) (p : Public)
    (h : Heap PubKind Val) (data : Bytes) (e : Basic) : Outcome Public PubKind Val :=
  if e.Event == "" && e.Arg.isSome && e.Data != [] && decide (e.Data.length > 0) then
    match e.channel with
    | none => Outcome.returned false p h
    | some ch =>
      if ch = "instruments" then deliver unmarshal p h PubKind.Instruments p.iCh data
      else if ch = "tickers" then deliver unmarshal p h PubKind.Tickers p.tCh data
      else if ch = "open-interest" then deliver unmarshal p h PubKind.OpenInterest p.oiCh data
      else if ch = "trades" then deliver unmarshal p h PubKind.Trades p.trCh data
      else if ch = "estimated-price" then
        deliver unmarshal p h PubKind.EstimatedDeliveryExercisePrice p.edepCh data
      else if ch = "mark-price" then deliver unmarshal p h PubKind.MarkPrice p.mpCh data
      else if ch = "price-limit" then deliver unmarshal p h PubKind.PriceLimit p.plCh data
      else if ch = "opt-summary" then deliver unmarshal p h PubKind.OPTIONSummary p.osCh data
      else if ch = "funding-rate" then deliver unmarshal p h PubKind.OPTIONSummary p.osCh data
      else if ch = "index-tickers" then deliver unmarshal p h PubKind.IndexTickers p.itCh data
      else if ch = "bbo-tbt" then deliver unmarshal p h PubKind.OrderBook p.obCh data
      else
        let chName := fmtSprint ch
        if stringsContains chName "mark-price-candle" then
          deliver unmarshal p h PubKind.MarkPriceCandlesticks p.mpcCh data
        else if stringsContains chName "index-candle" then
          deliver unmarshal p h PubKind.IndexCandlesticks p.icCh data
        else if stringsContains chName "candle" then
          deliver unmarshal p h PubKind.Candlesticks p.cCh data
        else if stringsContains chName "books" then
          deliver unmarshal p h PubKind.OrderBook p.obCh data
        else Outcome.returned false p h
  else Outcome.returned false p h

/-! ## Subscribe and unsubscribe methods -/

/-- The collaborators of the facade methods that live outside the embedded files:
`okex.S2M` (request struct to parameter map), the field `req.Channel`, and the
methods `Subscribe` and `Unsubscribe` of the embedded `*ClientWs`, which act on the
connection state `W` and return an error or `nil`. -/
structure WsEnv (W Req Err : Type) where
  S2M : Req → Params
  Channel : Req → String
  Subscribe : W → Bool → List String → List Params → W × Option Err
  Unsubscribe : W → Bool → List String → List Params → W × Option Err

/-- The statement `if len(ch) > 0 { field = ch[0] }` for a variadic sink argument:
the new value of the field. -/
def setSink (old : Option Sink) (ch : List (Option Sink)) : Option Sink :=
  match ch with
  | [] => old
  | c :: _ => c

/-- The statement `if len(rCh) > 0 && rCh[0] { field = nil }` for a variadic flag:
the new value of the field. -/
def clearSink (old : Option Sink) (rCh : List Bool) : Option Sink :=
  match rCh with
  | [] => old
  | b :: _ => if b then none else old

section Facade

variable {W Req Err : Type}

/-- The method `Public.Instruments`. -/
def Public.Instruments (env : WsEnv W Req Err) (p : Public) (w : W) (req : Req)
    (ch : List (Option Sink)) : Public × W × Option Err :=
  let m := env.S2M req
  let p := { p with iCh := setSink p.iCh ch }
  let r := env.Subscribe w false ["instruments"] [m]
  (p, r.1, r.2)

/-- The method `Public.UInstruments`. -/
def Public.UInstruments (env : WsEnv W Req Err) (p : Public) (w : W) (req : Req)
    (rCh : List Bool) : Public × W × Option Err :=
  let m := env.S2M req
  let p := { p with iCh := clearSink p.iCh rCh }
  let r := env.Unsubscribe w false ["instruments"] [m]
  (p, r.1, r.2)

/-- The method `Public.Tickers`. -/
def Public.Tickers (env : WsEnv W Req Err) (p : Public) (w : W) (req : Req)
    (ch : List (Option Sink)) : Public × W × Option Err :=
  let m := env.S2M req
  let p := { p with tCh := setSink p.tCh ch }
  let r := env.Subscribe w false ["tickers"] [m]
  (p, r.1, r.2)

/-- The method `Public.UTickers`. -/
def Public.UTickers (env : WsEnv W Req Err) (p : Public) (w : W) (req : Req)
    (rCh : List Bool) : Public × W × Option Err :=
  let m := env.S2M req
  let p := { p with tCh := clearSink p.tCh rCh }
  let r := env.Unsubscribe w false ["tickers"] [m]
  (p, r.1, r.2)

/-- The method `Public.OpenInterest`. -/
def Public.OpenInterest (env : WsEnv W Req Err) (p : Public) (w : W) (req : Req)
    (ch : List (Option Sink)) : Public × W × Option Err :=
  let m := env.S2M req
  let p := { p with oiCh := setSink p.oiCh ch }
  let r := env.Subscribe w false ["open-interest"] [m]
  (p, r.1, r.2)

/-- The method `Public.UOpenInterest`. -/
def Public.UOpenInterest (env : WsEnv W Req Err) (p : Public) (w : W) (req : Req)
    (rCh : List Bool) : Public × W × Option Err :=
  let m := env.S2M req
  let p := { p with oiCh := clearSink p.oiCh rCh }
  let r := env.Unsubscribe w false ["open-interest"] [m]
  (p, r.1, r.2)

/-- The method `Public.Candlesticks`. -/
def Public.Candlesticks (env : WsEnv W Req Err) (p : Public) (w : W) (req : Req)
    (ch : List (Option Sink)) : Public × W × Option Err :=
  let m := env.S2M req
  let p := { p with cCh := setSink p.cCh ch }
  let r := env.Subscribe w false [] [m]
  (p, r.1, r.2)

/-- The method `Public.UCandlesticks`. -/
def Public.UCandlesticks (env : WsEnv W Req Err) (p : Public) (w : W) (req : Req)
    (rCh : List Bool) : Public × W × Option Err :=
  let m := env.S2M req
  let p := { p with cCh := clearSink p.cCh rCh }
  let r := env.Unsubscribe w false [] [m]
  (p, r.1, r.2)

/-- The method `Public.Trades`. -/
def Public.Trades (env : WsEnv W Req Err) (p : Public) (w : W) (req : Req)
    (ch : List (Option Sink)) : Public × W × Option Err :=
  let m := env.S2M req
  let p := { p with trCh := setSink p.trCh ch }
  let r := env.Subscribe w false ["trades"] [m]
  (p, r.1, r.2)

/-- The method `Public.UTrades`. -/
def Public.UTrades (env : WsEnv W Req Err) (p : Public) (w : W) (req : Req)
    (rCh : List Bool) : Public × W × Option Err :=
  let m := env.S2M req
  let p := { p with trCh := clearSink p.trCh rCh }
  let r := env.Unsubscribe w false ["trades"] [m]
  (p, r.1, r.2)

/-- The method `Public.EstimatedDeliveryExercisePrice`. -/
def Public.EstimatedDeliveryExercisePrice (env : WsEnv W Req Err) (p : Public) (w : W) (req : Req)
    (ch : List (Option Sink)) : Public × W × Option Err :=
  let m := env.S2M req
  let p := { p with edepCh := setSink p.edepCh ch }
  let r := env.Subscribe w false ["estimated-price"] [m]
  (p, r.1, r.2)

/-- The method `Public.UEstimatedDeliveryExercisePrice`. -/
def Public.UEstimatedDeliveryExercisePrice (env : WsEnv W Req Err) (p : Public) (w : W) (req : Req)
    (rCh : List Bool) : Public × W × Option Err :=
  let m := env.S2M req
  let p := { p with edepCh := clearSink p.edepCh rCh }
  let r := env.Unsubscribe w false ["estimated-price"] [m]
  (p, r.1, r.2)

/-- The method `Public.MarkPrice`. -/
def Public.MarkPrice (env : WsEnv W Req Err) (p : Public) (w : W) (req : Req)
    (ch : List (Option Sink)) : Public × W × Option Err :=
  let m := env.S2M req
  let p := { p with mpCh := setSink p.mpCh ch }
  let r := env.Subscribe w false ["mark-price"] [m]
  (p, r.1, r.2)

/-- The method `Public.UMarkPrice`. -/
def Public.UMarkPrice (env : WsEnv W Req Err) (p : Public) (w : W) (req : Req)
    (rCh : List Bool) : Public × W × Option Err :=
  let m := env.S2M req
  let p := { p with mpCh := clearSink p.mpCh rCh }
  let r := env.Unsubscribe w false ["mark-price"] [m]
  (p, r.1, r.2)

/-- The method `Public.MarkPriceCandlesticks`. -/
def Public.MarkPriceCandlesticks (env : WsEnv W Req Err) (p : Public) (w : W) (req : Req)
    (ch : List (Option Sink)) : Public × W × Option Err :=
  let m := env.S2M req
  let m := m.set "channel" ("mark-price-" ++ m.get "channel")
  let p := { p with mpcCh := setSink p.mpcCh ch }
  let r := env.Subscribe w false [] [m]
  (p, r.1, r.2)

/-- The method `Public.UMarkPriceCandlesticks`. -/
def Public.UMarkPriceCandlesticks (env : WsEnv W Req Err) (p : Public) (w : W) (req : Req)
    (rCh : List Bool) : Public × W × Option Err :=
  let m := env.S2M req
  let m := m.set "channel" ("mark-price-" ++ m.get "channel")
  let p := { p with mpcCh := clearSink p.mpcCh rCh }
  let r := env.Unsubscribe w false [] [m]
  (p, r.1, r.2)

/-- The method `Public.PriceLimit`. -/
def Public.PriceLimit (env : WsEnv W Req Err) (p : Public) (w : W) (req : Req)
    (ch : List (Option Sink)) : Public × W × Option Err :=
  let m := env.S2M req
  let p := { p with plCh := setSink p.plCh ch }
  let r := env.Subscribe w false ["price-limit"] [m]
  (p, r.1, r.2)

/-- The method `Public.UPriceLimit`. -/
def Public.UPriceLimit (env : WsEnv W Req Err) (p : Public) (w : W) (req : Req)
    (rCh : List Bool) : Public × W × Option Err :=
  let m := env.S2M req
  let p := { p with plCh := clearSink p.plCh rCh }
  let r := env.Unsubscribe w false ["price-limit"] [m]
  (p, r.1, r.2)

/-- The method `Public.OrderBook`; the loop collects `okex.S2M(req)` for each request. -/
def Public.OrderBook (env : WsEnv W Req Err) (p : Public) (w : W) (reqs : List Req)
    (ch : List (Option Sink)) : Public × W × Option Err :=
  let p := { p with obCh := setSink p.obCh ch }
  let subscriptions := reqs.map env.S2M
  let r := env.Subscribe w false [] subscriptions
  (p, r.1, r.2)

/-- The method `Public.UOrderBook`. -/
def Public.UOrderBook (env : WsEnv W Req Err) (p : Public) (w : W) (req : Req)
    (rCh : List Bool) : Public × W × Option Err :=
  let m := env.S2M req
  let p := { p with obCh := clearSink p.obCh rCh }
  let r := env.Unsubscribe w false [env.Channel req] [m]
  (p, r.1, r.2)

/-- The method `Public.OPTIONSummary`. -/
def Public.OPTIONSummary (env : WsEnv W Req Err) (p : Public) (w : W) (req : Req)
    (ch : List (Option Sink)) : Public × W × Option Err :=
  let m := env.S2M req
  let p := { p with osCh := setSink p.osCh ch }
  let r := env.Subscribe w false ["opt-summary"] [m]
  (p, r.1, r.2)

/-- The method `Public.UOPTIONSummary`. -/
def Public.UOPTIONSummary (env : WsEnv W Req Err) (p : Public) (w : W) (req : Req)
    (rCh : List Bool) : Public × W × Option Err :=
  let m := env.S2M req
  let p := { p with osCh := clearSink p.osCh rCh }
  let r := env.Unsubscribe w false ["opt-summary"] [m]
  (p, r.1, r.2)

/-- The method `Public.FundingRate`. -/
def Public.FundingRate (env : WsEnv W Req Err) (p : Public) (w : W) (req : Req)
    (ch : List (Option Sink)) : Public × W × Option Err :=
  let m := env.S2M req
  let p := { p with frCh := setSink p.frCh ch }
  let r := env.Subscribe w false ["funding-rate"] [m]
  (p, r.1, r.2)

/-- The method `Public.UFundingRate`. -/
def Public.UFundingRate (env : WsEnv W Req Err) (p : Public) (w : W) (req : Req)
    (rCh : List Bool) : Public × W × Option Err :=
  let m := env.S2M req
  let p := { p with frCh := clearSink p.frCh rCh }
  let r := env.Unsubscribe w false ["funding-rate"] [m]
  (p, r.1, r.2)

/-- The method `Public.IndexCandlesticks`. -/
def Public.IndexCandlesticks (env : WsEnv W Req Err) (p : Public) (w : W) (req : Req)
    (ch : List (Option Sink)) : Public × W × Option Err :=
  let m := env.S2M req
  let m := m.set "channel" (env.Channel req)
  let p := { p with icCh := setSink p.icCh ch }
  let r := env.Subscribe w false [] [m]
  (p, r.1, r.2)

/-- The method `Public.UIndexCandlesticks`. -/
def Public.UIndexCandlesticks (env : WsEnv W Req Err) (p : Public) (w : W) (req : Req)
    (rCh : List Bool) : Public × W × Option Err :=
  let m := env.S2M req
  let m := m.set "channel" (env.Channel req)
  let p := { p with icCh := clearSink p.icCh rCh }
  let r := env.Unsubscribe w false [] [m]
  (p, r.1, r.2)

/-- The method `Public.IndexTickers`. -/
def Public.IndexTickers (env : WsEnv W Req Err) (p : Public) (w : W) (req : Req)
    (ch : List (Option Sink)) : Public × W × Option Err :=
  let m := env.S2M req
  let p := { p with itCh := setSink p.itCh ch }
  let r := env.Subscribe w false ["index-tickers"] [m]
  (p, r.1, r.2)

/-- The method `Public.UIndexTickers`. -/
def Public.UIndexTickers (env : WsEnv W Req Err) (p : Public) (w : W) (req : Req)
    (rCh : List Bool) : Public × W × Option Err :=
  let m := env.S2M req
  let p := { p with itCh := clearSink p.itCh rCh }
  let r := env.Unsubscribe w false ["index-tickers"] [m]
  (p, r.1, r.2)

/-- The method `Private.Account`. -/
def Private.Account (env : WsEnv W Req Err) (p : Private) (w : W) (req : Req)
    (ch : List (Option Sink)) : Private × W × Option Err :=
  let m := env.S2M req
  let p := { p with aCh := setSink p.aCh ch }
  let r := env.Subscribe w true ["account"] [m]
  (p, r.1, r.2)

/-- The method `Private.UAccount`. -/
def Private.UAccount (env : WsEnv W Req Err) (p : Private) (w : W) (req : Req)
    (rCh : List Bool) : Private × W × Option Err :=
  let m := env.S2M req
  let p := { p with aCh := clearSink p.aCh rCh }
  let r := env.Unsubscribe w true ["account"] [m]
  (p, r.1, r.2)

/-- The method `Private.Position`. -/
def Private.Position (env : WsEnv W Req Err) (p : Private) (w : W) (req : Req)
    (ch : List (Option Sink)) : Private × W × Option Err :=
  let m := env.S2M req
  let p := { p with pCh := setSink p.pCh ch }
  let r := env.Subscribe w true ["positions"] [m]
  (p, r.1, r.2)

/-- The method `Private.UPosition`. -/
def Private.UPosition (env : WsEnv W Req Err) (p : Private) (w : W) (req : Req)
    (rCh : List Bool) : Private × W × Option Err :=
  let m := env.S2M req
  let p := { p with pCh := clearSink p.pCh rCh }
  let r := env.Unsubscribe w true ["positions"] [m]
  (p, r.1, r.2)

/-- The method `Private.BalanceAndPosition`; `m` is the empty map. -/
def Private.BalanceAndPosition (env : WsEnv W Req Err) (p : Private) (w : W)
    (ch : List (Option Sink)) : Private × W × Option Err :=
  let m : Params := []
  let p := { p with bnpCh := setSink p.bnpCh ch }
  let r := env.Subscribe w true ["balance_and_position"] [m]
  (p, r.1, r.2)

/-- The method `Private.UBalanceAndPosition`; `m` is the empty map. -/
def Private.UBalanceAndPosition (env : WsEnv W Req Err) (p : Private) (w : W)
    (rCh : List Bool) : Private × W × Option Err :=
  let m : Params := []
  let p := { p with bnpCh := clearSink p.bnpCh rCh }
  let r := env.Unsubscribe w true ["balance_and_position"] [m]
  (p, r.1, r.2)

/-- The method `Private.Order`. -/
def Private.Order (env : WsEnv W Req Err) (p : Private) (w : W) (req : Req)
    (ch : List (Option Sink)) : Private × W × Option Err :=
  let m := env.S2M req
  let p := { p with oCh := setSink p.oCh ch }
  let r := env.Subscribe w true ["orders"] [m]
  (p, r.1, r.2)

/-- The method `Private.UOrder`. -/
def Private.UOrder (env : WsEnv W Req Err) (p : Private) (w : W) (req : Req)
    (rCh : List Bool) : Private × W × Option Err :=
  let m := env.S2M req
  let p := { p with oCh := clearSink p.oCh rCh }
  let r := env.Unsubscribe w true ["orders"] [m]
  (p, r.1, r.2)

end Facade

/-! ## Families -/

/-- The sink field of `Public` whose element type is `k`. -/
def Public.sink (p : Public) : PubKind → Option Sink
  | PubKind.Instruments => p.iCh
  | PubKind.Tickers => p.tCh
  | PubKind.OpenInterest => p.oiCh
  | PubKind.Candlesticks => p.cCh
  | PubKind.Trades => p.trCh
  | PubKind.EstimatedDeliveryExercisePrice => p.edepCh
  | PubKind.MarkPrice => p.mpCh
  | PubKind.MarkPriceCandlesticks => p.mpcCh
  | PubKind.PriceLimit => p.plCh
  | PubKind.OrderBook => p.obCh
  | PubKind.OPTIONSummary => p.osCh
  | PubKind.FundingRate => p.frCh
  | PubKind.IndexCandlesticks => p.icCh
  | PubKind.IndexTickers => p.itCh

/-- The sink field of `Private` whose element type is `k`. -/
def Private.sink (p : Private) : PrivKind → Option Sink
  | PrivKind.Account => p.aCh
  | PrivKind.Position => p.pCh
  | PrivKind.BalanceAndPosition => p.bnpCh
  | PrivKind.Order => p.oCh

/-- The fixed channel name the subscribe method of a public family puts on the wire
(`[]okex.ChannelName{"tickers"}`, ...); `none` for the four families whose channel
name comes from the request. -/
def PubKind.name : PubKind → Option String
  | PubKind.Instruments => some "instruments"
  | PubKind.Tickers => some "tickers"
  | PubKind.OpenInterest => some "open-interest"
  | PubKind.Candlesticks => none
  | PubKind.Trades => some "trades"
  | PubKind.EstimatedDeliveryExercisePrice => some "estimated-price"
  | PubKind.MarkPrice => some "mark-price"
  | PubKind.MarkPriceCandlesticks => none
  | PubKind.PriceLimit => some "price-limit"
  | PubKind.OrderBook => none
  | PubKind.OPTIONSummary => some "opt-summary"
  | PubKind.FundingRate => some "funding-rate"
  | PubKind.IndexCandlesticks => none
  | PubKind.IndexTickers => some "index-tickers"

/-- The channel name the subscribe method of a private family puts on the wire. -/
def PrivKind.name : PrivKind → String
  | PrivKind.Account => "account"
  | PrivKind.Position => "positions"
  | PrivKind.BalanceAndPosition => "balance_and_position"
  | PrivKind.Order => "orders"

section Dispatch

variable {W Req Err : Type}

/-- The subscribe method of public family `k`: `req` is the request of the
single-request methods, `reqs` the request list of `OrderBook`. -/
def Public.subscribe (env : WsEnv W Req Err) (k : PubKind) (p : Public) (w : W) (req : Req)
    (reqs : List Req) (ch : List (Option Sink)) : Public × W × Option Err :=
  match k with
  | PubKind.Instruments => p.Instruments env w req ch
  | PubKind.Tickers => p.Tickers env w req ch
  | PubKind.OpenInterest => p.OpenInterest env w req ch
  | PubKind.Candlesticks => p.Candlesticks env w req ch
  | PubKind.Trades => p.Trades env w req ch
  | PubKind.EstimatedDeliveryExercisePrice => p.EstimatedDeliveryExercisePrice env w req ch
  | PubKind.MarkPrice => p.MarkPrice env w req ch
  | PubKind.MarkPriceCandlesticks => p.MarkPriceCandlesticks env w req ch
  | PubKind.PriceLimit => p.PriceLimit env w req ch
  | PubKind.OrderBook => p.OrderBook env w reqs ch
  | PubKind.OPTIONSummary => p.OPTIONSummary env w req ch
  | PubKind.FundingRate => p.FundingRate env w req ch
  | PubKind.IndexCandlesticks => p.IndexCandlesticks env w req ch
  | PubKind.IndexTickers => p.IndexTickers env w req ch

/-- The unsubscribe method of public family `k`. -/
def Public.unsubscribe (env : WsEnv W Req Err) (k : PubKind) (p : Public) (w : W) (req : Req)
    (rCh : List Bool) : Public × W × Option Err :=
  match k with
  | PubKind.Instruments => p.UInstruments env w req rCh
  | PubKind.Tickers => p.UTickers env w req rCh
  | PubKind.OpenInterest => p.UOpenInterest env w req rCh
  | PubKind.Candlesticks => p.UCandlesticks env w req rCh
  | PubKind.Trades => p.UTrades env w req rCh
  | PubKind.EstimatedDeliveryExercisePrice => p.UEstimatedDeliveryExercisePrice env w req rCh
  | PubKind.MarkPrice => p.UMarkPrice env w req rCh
  | PubKind.MarkPriceCandlesticks => p.UMarkPriceCandlesticks env w req rCh
  | PubKind.PriceLimit => p.UPriceLimit env w req rCh
  | PubKind.OrderBook => p.UOrderBook env w req rCh
  | PubKind.OPTIONSummary => p.UOPTIONSummary env w req rCh
  | PubKind.FundingRate => p.UFundingRate env w req rCh
  | PubKind.IndexCandlesticks => p.UIndexCandlesticks env w req rCh
  | PubKind.IndexTickers => p.UIndexTickers env w req rCh

/-- The subscribe method of private family `k` (`BalanceAndPosition` takes no
request). -/
def Private.subscribe (env : WsEnv W Req Err) (k : PrivKind) (p : Private) (w : W) (req : Req)
    (ch : List (Option Sink)) : Private × W × Option Err :=
  match k with
  | PrivKind.Account => p.Account env w req ch
  | PrivKind.Position => p.Position env w req ch
  | PrivKind.BalanceAndPosition => p.BalanceAndPosition env w ch
  | PrivKind.Order => p.Order env w req ch

/-- The unsubscribe method of private family `k` (`UBalanceAndPosition` takes no
request). -/
def Private.unsubscribe (env : WsEnv W Req Err) (k : PrivKind) (p : Private) (w : W) (req : Req)
    (rCh : List Bool) : Private × W × Option Err :=
  match k with
  | PrivKind.Account => p.UAccount env w req rCh
  | PrivKind.Position => p.UPosition env w req rCh
  | PrivKind.BalanceAndPosition => p.UBalanceAndPosition env w rCh
  | PrivKind.Order => p.UOrder env w req rCh

end Dispatch

/-! ## Routing tables read off `Public.Process` -/

/-- The case labels of the `switch` in `Public.Process`. -/
def Public.fixedNames : List String :=
  ["instruments", "tickers", "open-interest", "trades", "estimated-price", "mark-price",
   "price-limit", "opt-summary", "funding-rate", "index-tickers", "bbo-tbt"]

/-- The four substring tests of the `default` case, in the order of the source, each
with the element type of the branch it guards. -/
def Public.fallbackTests : List (String × PubKind) :=
  [("mark-price-candle", PubKind.MarkPriceCandlesticks),
   ("index-candle", PubKind.IndexCandlesticks),
   ("candle", PubKind.Candlesticks),
   ("books", PubKind.OrderBook)]

/-- An `if / else if` chain over substring tests: the branch of the first test, in
the order of `tests`, whose substring the name contains. -/
def firstMatchIn (tests : List (String × PubKind)) (chName : String) : Option PubKind :=
  match tests with
  | [] => none
  | t :: rest => if stringsContains chName t.1 then some t.2 else firstMatchIn rest chName

/-- The element type (and with it the sink field, `Public.sink`) that the `switch`
of `Public.Process` selects for a channel name; `none` when no branch is taken. -/
def Public.selected (ch : String) : Option PubKind :=
  if ch = "instruments" then some PubKind.Instruments
  else if ch = "tickers" then some PubKind.Tickers
  else if ch = "open-interest" then some PubKind.OpenInterest
  else if ch = "trades" then some PubKind.Trades
  else if ch = "estimated-price" then some PubKind.EstimatedDeliveryExercisePrice
  else if ch = "mark-price" then some PubKind.MarkPrice
  else if ch = "price-limit" then some PubKind.PriceLimit
  else if ch = "opt-summary" then some PubKind.OPTIONSummary
  else if ch = "funding-rate" then some PubKind.OPTIONSummary
  else if ch = "index-tickers" then some PubKind.IndexTickers
  else if ch = "bbo-tbt" then some PubKind.OrderBook
  else firstMatchIn Public.fallbackTests (fmtSprint ch)

/-- The rule of the specification for a parameterised channel name: among the
candidate substrings that the name contains, the one of greatest length, with its
family; `none` when the name contains no candidate. -/
def longestMatchIn (cands : List (String × PubKind)) (chName : String) :
    Option (String × PubKind) :=
  (cands.filter (fun c => stringsContains chName c.1)).argmax (fun c => c.1.length)

/-- The family a channel name addresses: the family whose subscribe method puts that
fixed name on the wire, the order book for `bbo-tbt` (the one-level book channel),
and for every other name the family of the longest candidate substring in it. -/
def Public.family (ch : String) : Option PubKind :=
  if ch = "instruments" then some PubKind.Instruments
  else if ch = "tickers" then some PubKind.Tickers
  else if ch = "open-interest" then some PubKind.OpenInterest
  else if ch = "trades" then some PubKind.Trades
  else if ch = "estimated-price" then some PubKind.EstimatedDeliveryExercisePrice
  else if ch = "mark-price" then some PubKind.MarkPrice
  else if ch = "price-limit" then some PubKind.PriceLimit
  else if ch = "opt-summary" then some PubKind.OPTIONSummary
  else if ch = "funding-rate" then some PubKind.FundingRate
  else if ch = "index-tickers" then some PubKind.IndexTickers
  else if ch = "bbo-tbt" then some PubKind.OrderBook
  else (longestMatchIn Public.fallbackTests ch).map Prod.snd

/-- The family a private channel name addresses. -/
def Private.family (ch : String) : Option PrivKind :=
  if ch = "account" then some PrivKind.Account
  else if ch = "positions" then some PrivKind.Position
  else if ch = "balance_and_position" then some PrivKind.BalanceAndPosition
  else if ch = "orders" then some PrivKind.Order
  else none

/-- A push frame on channel `ch` carrying no parameters besides the channel name and
one raw payload. -/
def pushFrame (ch : String) : Basic :=
  { Event := "", Arg := some [("channel", ch)], Data := [[]] }

/-- A heap of empty channels, each with room for `n` values. -/
def emptyHeap (K Val : Type) (n : Nat) : Heap K Val :=
  fun _ _ => { cap := n, queue := [] }

/-- A `Public` on which every subscribe method installed a sink of its own. -/
def Public.allInstalled : Public :=
  { iCh := some 0, tCh := some 1, oiCh := some 2, cCh := some 3, trCh := some 4,
    edepCh := some 5, mpCh := some 6, mpcCh := some 7, plCh := some 8, obCh := some 9,
    osCh := some 10, frCh := some 11, icCh := some 12, itCh := some 13 }

/-- A `Private` on which every subscribe method installed a sink of its own. -/
def Private.allInstalled : Private :=
  { aCh := some 0, pCh := some 1, bnpCh := some 2, oCh := some 3 }

/-- The reader loop hands the frames to `Process` one after the other: what follows
a call that returned runs on the receiver and the channels it left, and nothing
follows a call that is parked in a send. -/
def Outcome.andThen {S K Val : Type} (o : Outcome S K Val)
    (next : S → Heap K Val → Outcome S K Val) : Outcome S K Val :=
  match o with
  | Outcome.returned _ s h => next s h
  | Outcome.blocked => Outcome.blocked

/-- A connection layer for examples: requests are their own parameter maps and
every `Subscribe` and `Unsubscribe` succeeds at once. -/
def quietEnv : WsEnv Unit Params String :=
  { S2M := fun req => req,
    Channel := fun req => Params.get req "channel",
    Subscribe := fun w _ _ _ => (w, none),
    Unsubscribe := fun w _ _ _ => (w, none) }

/-! ## REST signer (`api/rest/client.go`) -/

/-- Modelled from the spec: the type `okex.Destination` and its constant
`okex.DemoServer` are declared outside the embedded files; a destination is the
live venue or the demo (simulated trading) venue. -/
inductive Destination where
  | NormalServer | DemoServer
  deriving DecidableEq, Repr

/-- The data fields of the struct `ClientRest`; `serverTimeDiff` is a
`time.Duration`, a number of nanoseconds. -/
structure ClientRest where
  apiKey : String
  secretKey : Bytes
  passphrase : String
  destination : Destination
  baseURL : String
  serverTimeDiff : Int

/-- The Go library functions the signer calls: `Time.Format` at a layout and a UTC
instant in nanoseconds since the epoch, HMAC-SHA256 (`hmac.New(sha256.New, key)`,
`Write`, `Sum(nil)`) at a key and a message, and `base64.StdEncoding.EncodeToString`. -/
structure GoStd where
  timeFormat : String → Int → String
  hmacSHA256 : Bytes → Bytes → Bytes
  base64StdEncode : Bytes → String

/-- The conversion `[]byte(s)`: the UTF-8 bytes of the string. -/
def stringBytes (s : String) : Bytes :=
  s.toUTF8.toList.map UInt8.toNat

/-- The method `ClientRest.SetSystemTimeDiff`. -/
def ClientRest.SetSystemTimeDiff (c : ClientRest) (timeDiff : Int) : ClientRest :=
  { c with serverTimeDiff := timeDiff }

/-- The method `ClientRest.sign`; `now` is the reading of `time.Now()`. -/
def ClientRest.sign (std : GoStd) (c : ClientRest) (now : Int) (method path body : String) :
    String × String :=
  let format := "2006-01-02T15:04:05.999Z07:00"
  let currentTime := now + c.serverTimeDiff
  let t := std.timeFormat format currentTime
  let ts := fmtSprint t
  let s := ts ++ method ++ path ++ body
  let p := stringBytes s
  (ts, std.base64StdEncode (std.hmacSHA256 c.secretKey p))

/-! ## REST request dispatch (`api/rest/client.go`) -/

/-- The value `url.Values` as the list of its key and value pairs: the values of one
key stand in the order they were added. -/
abbrev Values := List (String × String)

/-- The order of `sort.Strings` on character lists: lexicographic. -/
def charsLE : List Char → List Char → Bool
  | [], _ => true
  | _ :: _, [] => false
  | a :: as, b :: bs =>
    if a.toNat < b.toNat then true
    else if a.toNat = b.toNat then charsLE as bs
    else false

/-- The order of `sort.Strings`. -/
def stringLE (a b : String) : Bool :=
  charsLE a.data b.data

/-- The method `url.Values.Add`. -/
def Values.Add (q : Values) (k v : String) : Values :=
  q ++ [(k, v)]

/-- The method `url.Values.Encode`: the pairs sorted by key (the values of one key
keep their order), each rendered `escape(key)=escape(value)`, joined with `&`;
`escape` is `url.QueryEscape`. -/
def Values.Encode (escape : String → String) (q : Values) : String :=
  "&".intercalate
    ((List.insertionSort (fun a b : String × String => stringLE a.1 b.1 = true) q).map
      (fun kv => escape kv.1 ++ "=" ++ escape kv.2))

/-- The call `strings.ReplaceAll(v, "\"", "")`: every double-quote character
(code 34) is removed. -/
def stripQuotes (v : String) : String :=
  String.mk (v.data.filter (fun ch => ch != Char.ofNat 34))

/-- The `*http.Request` that `Do` builds: the method, the URL string `u` given to
`http.NewRequestWithContext`, the field `URL.RawQuery`, the body (`none` for the
`nil` body of a GET) and the header entries in the order of `Header.Add`. -/
structure Request where
  method : String
  url : String
  rawQuery : String
  body : Option String
  header : List (String × String)

/-- The `*http.Response` as far as the client reads it. -/
structure Response where
  StatusCode : Nat
  Body : Bytes

/-- The Go library functions `Do` calls: the error of `http.NewRequestWithContext`
at a method and a URL (`none` for `nil`), the `RawQuery` that parsing the URL
leaves on the fresh request, the parser behind `r.URL.Query()`, `url.QueryEscape`,
`json.Marshal` at a parameter map, and the `Do` of the `*http.Client`. -/
structure HttpEnv (Err : Type) where
  newRequestError : String → String → Option Err
  rawQueryOf : String → String
  parseQuery : String → Values
  queryEscape : String → String
  jsonMarshal : Params → Except Err String
  clientDo : Request → Except Err Response

/-- What a call of `Do` does: a run-time panic, an early `return nil, err`, or the
request handed to `c.client.Do` together with what that call returned. -/
inductive DoResult (Err : Type) where
  | panicked (msg : String)
  | failed (err : Err)
  | sent (r : Request) (res : Except Err Response)

/-- The method `ClientRest.Do`; `now` is the reading of `time.Now()` inside `sign`.
The two branches leave the request `r`, the path to sign and the body to sign, or
end the call; the tail adds the headers and sends. The literal `"\x7b\x7d"` is the
empty JSON object. -/
def ClientRest.Do {Err : Type} (std : GoStd) (http : HttpEnv Err) (c : ClientRest) (now : Int)
    (method path : String) (isPrivate : Bool) (params : List Params) : DoResult Err :=
  let u := c.baseURL ++ path
  let pre : Except (DoResult Err) (Request × String × String) :=
    if method = "GET" then
      match http.newRequestError "GET" u with
      | some err => Except.error (DoResult.failed err)
      | none =>
        let r : Request :=
          { method := "GET", url := u, rawQuery := http.rawQueryOf u, body := none,
            header := [] }
        match params with
        | [] => Except.ok (r, path, "")
        | m :: _ =>
          let q := m.foldl (fun q kv => q.Add kv.1 (stripQuotes kv.2))
            (http.parseQuery r.rawQuery)
          let r := { r with rawQuery := Values.Encode http.queryEscape q }
          let path := if m.length > 0 then path ++ "?" ++ r.rawQuery else path
          Except.ok (r, path, "")
    else
      match params with
      | [] => Except.error (DoResult.panicked "index out of range [0] with length 0")
      | m :: _ =>
        match http.jsonMarshal m with
        | Except.error err => Except.error (DoResult.failed err)
        | Except.ok j =>
          let body := if j = "\x7b\x7d" then "" else j
          match http.newRequestError method u with
          | some err => Except.error (DoResult.failed err)
          | none =>
            Except.ok
              ({ method := method, url := u, rawQuery := http.rawQueryOf u, body := some j,
                 header := [("Content-Type", "application/json")] }, path, body)
  match pre with
  | Except.error early => early
  | Except.ok (r, path, body) =>
    let r :=
      if isPrivate then
        let ts := c.sign std now method path body
        { r with header := r.header ++
            [("OK-ACCESS-KEY", c.apiKey), ("OK-ACCESS-PASSPHRASE", c.passphrase),
             ("OK-ACCESS-SIGN", ts.2), ("OK-ACCESS-TIMESTAMP", ts.1)] }
      else r
    let r :=
      if c.destination = Destination.DemoServer then
        { r with header := r.header ++ [("x-simulated-trading", "1")] }
      else r
    DoResult.sent r (http.clientDo r)

/-! ## Response decoding and the typed endpoint methods -/

/-- The struct `responses.Basic`: the envelope fields `code` and `msg`. -/
structure responses.Basic where
  Code : Int
  Msg : String

/-- The method `Basic.GetCode`. -/
def responses.Basic.GetCode (c : responses.Basic) : Int := c.Code

/-- The method `Basic.GetMsg`. -/
def responses.Basic.GetMsg (c : responses.Basic) : String := c.Msg

/-- The interface `responses.BasicI`: a value with its two methods. -/
structure responses.BasicI where
  GetCode : Int
  GetMsg : String

/-- A `*Basic` as a `BasicI`. -/
def responses.Basic.toBasicI (c : responses.Basic) : responses.BasicI :=
  { GetCode := c.GetCode, GetMsg := c.GetMsg }

/-- An `error` value: one made by a library call, or one made by `errors.New` from
a text. -/
inductive RestError (Err : Type) where
  | lib (e : Err)
  | text (msg : String)

/-- What an endpoint method does: a run-time panic, or the return of the named
results `response` and `err` (`none` for `nil`). -/
inductive CallResult (V Err : Type) where
  | panicked (msg : String)
  | returned (response : V) (err : Option (RestError Err))

/-- The collaborators of an endpoint method that live outside the embedded files,
for a request type `Req` and a response type `V`: `okex.S2M`, the field `req.IP`,
the JSON decoder writing into a value of type `V` (it returns the value it leaves
and its error), the type assertion `v.(responses.BasicI)`, and the zero value of
`V`. -/
structure Codec (Req V Err : Type) where
  S2M : Req → Params
  IP : Req → List String
  jsonDecode : Bytes → V → V × Option Err
  assertBasicI : V → Option responses.BasicI
  zero : V

/-- The method `ClientRest.decode`: the value left in the target and the error. -/
def ClientRest.decode {V Err : Type} (jsonDecode : Bytes → V → V × Option Err)
    (assertBasicI : V → Option responses.BasicI) (reader : Bytes) (v : V) :
    V × Option (RestError Err) :=
  match jsonDecode reader v with
  | (v, some err) => (v, some (RestError.lib err))
  | (v, none) =>
    match assertBasicI v with
    | none => (v, none)
    | some vBasic =>
      if vBasic.GetCode ≠ 0 then
        (v, some (RestError.text
          ("code: " ++ toString vBasic.GetCode ++ ", msg: " ++ vBasic.GetMsg)))
      else (v, none)

/-- The shape shared by the methods of `SubAccount` and `TradeData`:
```
res, err := c.client.Do(ctx, method, p, private, params...)
if err != nil { return }
defer res.Body.Close()
err = c.client.decode(res.Body, &response)
return
```
-/
def ClientRest.call {Req V Err : Type} (std : GoStd) (http : HttpEnv Err)
    (codec : Codec Req V Err) (c : ClientRest) (now : Int) (method p : String)
    (isPrivate : Bool) (params : List Params) : CallResult V Err :=
  match c.Do std http now method p isPrivate params with
  | DoResult.panicked msg => CallResult.panicked msg
  | DoResult.failed err => CallResult.returned codec.zero (some (RestError.lib err))
  | DoResult.sent _ (Except.error err) =>
    CallResult.returned codec.zero (some (RestError.lib err))
  | DoResult.sent _ (Except.ok res) =>
    let out := ClientRest.decode codec.jsonDecode codec.assertBasicI res.Body codec.zero
    CallResult.returned out.1 out.2

/-- The method `ClientRest.Status`: it decodes with `json.NewDecoder(res.Body)`
and `d.Decode(&response)`, not with `c.decode`. -/
def ClientRest.Status {Req V Err : Type} (std : GoStd) (http : HttpEnv Err)
    (codec : Codec Req V Err) (c : ClientRest) (now : Int) (req : Req) : CallResult V Err :=
  let p := "/api/v5/system/status"
  let m := codec.S2M req
  match c.Do std http now "GET" p false [m] with
  | DoResult.panicked msg => CallResult.panicked msg
  | DoResult.failed err => CallResult.returned codec.zero (some (RestError.lib err))
  | DoResult.sent _ (Except.error err) =>
    CallResult.returned codec.zero (some (RestError.lib err))
  | DoResult.sent _ (Except.ok res) =>
    let out := codec.jsonDecode res.Body codec.zero
    CallResult.returned out.1 (out.2.map RestError.lib)

/-- The struct `SubAccount`. -/
structure SubAccount where
  client : ClientRest

/-- The struct `TradeData`. -/
structure TradeData where
  client : ClientRest

/-- The method `SubAccount.ViewList`. -/
def SubAccount.ViewList {Req V Err : Type} (std : GoStd) (http : HttpEnv Err)
    (codec : Codec Req V Err) (c : SubAccount) (now : Int) (req : Req) : CallResult V Err :=
  let p := "/api/v5/users/subaccount/list"
  let m := codec.S2M req
  c.client.call std http codec now "GET" p true [m]

/-- The method `SubAccount.CreateAPIKey`. -/
def SubAccount.CreateAPIKey {Req V Err : Type} (std : GoStd) (http : HttpEnv Err)
    (codec : Codec Req V Err) (c : SubAccount) (now : Int) (req : Req) : CallResult V Err :=
  let p := "/api/v5/users/subaccount/apikey"
  let m := codec.S2M req
  let m := if (codec.IP req).length > 0 then m.set "ip" (",".intercalate (codec.IP req)) else m
  c.client.call std http codec now "POST" p true [m]

/-- The method `SubAccount.QueryAPIKey`. -/
def SubAccount.QueryAPIKey {Req V Err : Type} (std : GoStd) (http : HttpEnv Err)
    (codec : Codec Req V Err) (c : SubAccount) (now : Int) (req : Req) : CallResult V Err :=
  let p := "/api/v5/users/subaccount/apikey"
  let m := codec.S2M req
  c.client.call std http codec now "GET" p true [m]

/-- The method `SubAccount.ResetAPIKey`. -/
def SubAccount.ResetAPIKey {Req V Err : Type} (std : GoStd) (http : HttpEnv Err)
    (codec : Codec Req V Err) (c : SubAccount) (now : Int) (req : Req) : CallResult V Err :=
  let p := "/api/v5/users/subaccount/modify-apikey"
  let m := codec.S2M req
  let m := if (codec.IP req).length > 0 then m.set "ip" (",".intercalate (codec.IP req)) else m
  c.client.call std http codec now "POST" p true [m]

/-- The method `SubAccount.DeleteAPIKey`. -/
def SubAccount.DeleteAPIKey {Req V Err : Type} (std : GoStd) (http : HttpEnv Err)
    (codec : Codec Req V Err) (c : SubAccount) (now : Int) (req : Req) : CallResult V Err :=
  let p := "/api/v5/users/subaccount/delete-apikey"
  let m := codec.S2M req
  c.client.call std http codec now "POST" p true [m]

/-- The method `SubAccount.GetBalance`. -/
def SubAccount.GetBalance {Req V Err : Type} (std : GoStd) (http : HttpEnv Err)
    (codec : Codec Req V Err) (c : SubAccount) (now : Int) (req : Req) : CallResult V Err :=
  let p := "/api/v5/account/subaccount/balances"
  let m := codec.S2M req
  c.client.call std http codec now "GET" p true [m]

/-- The method `SubAccount.HistoryTransfer`. -/
def SubAccount.HistoryTransfer {Req V Err : Type} (std : GoStd) (http : HttpEnv Err)
    (codec : Codec Req V Err) (c : SubAccount) (now : Int) (req : Req) : CallResult V Err :=
  let p := "/api/v5/account/subaccount/bills"
  let m := codec.S2M req
  c.client.call std http codec now "GET" p true [m]

/-- The method `SubAccount.ManageTransfers`. -/
def SubAccount.ManageTransfers {Req V Err : Type} (std : GoStd) (http : HttpEnv Err)
    (codec : Codec Req V Err) (c : SubAccount) (now : Int) (req : Req) : CallResult V Err :=
  let p := "/api/v5/account/subaccount/transfer"
  let m := codec.S2M req
  c.client.call std http codec now "POST" p true [m]

/-- The method `TradeData.GetSupportCoin`: `Do` is called without a parameter map. -/
def TradeData.GetSupportCoin {Req V Err : Type} (std : GoStd) (http : HttpEnv Err)
    (codec : Codec Req V Err) (c : TradeData) (now : Int) : CallResult V Err :=
  let p := "/api/v5/rubik/stat/trading-data/support-coin"
  c.client.call std http codec now "GET" p false []

/-- The method `TradeData.GetTakerVolume`. -/
def TradeData.GetTakerVolume {Req V Err : Type} (std : GoStd) (http : HttpEnv Err)
    (codec : Codec Req V Err) (c : TradeData) (now : Int) (req : Req) : CallResult V Err :=
  let p := "/api/v5/rubik/stat/taker-volume"
  let m := codec.S2M req
  c.client.call std http codec now "GET" p false [m]

/-- The method `TradeData.GetMarginLendingRatio`. -/
def TradeData.GetMarginLendingRatio {Req V Err : Type} (std : GoStd) (http : HttpEnv Err)
    (codec : Codec Req V Err) (c : TradeData) (now : Int) (req : Req) : CallResult V Err :=
  let p := "/api/v5/rubik/stat/margin/loan-ratio"
  let m := codec.S2M req
  c.client.call std http codec now "GET" p false [m]

/-- The method `TradeData.GetLongShortRatio`. -/
def TradeData.GetLongShortRatio {Req V Err : Type} (std : GoStd) (http : HttpEnv Err)
    (codec : Codec Req V Err) (c : TradeData) (now : Int) (req : Req) : CallResult V Err :=
  let p := "/api/v5/rubik/stat/contracts/long-short-account-ratio"
  let m := codec.S2M req
  c.client.call std http codec now "GET" p false [m]

/-- The method `TradeData.GetContractsOpenInterestAndVolume`. -/
def TradeData.GetContractsOpenInterestAndVolume {Req V Err : Type} (std : GoStd) (http : HttpEnv Err)
    (codec : Codec Req V Err) (c : TradeData) (now : Int) (req : Req) : CallResult V Err :=
  let p := "/api/v5/rubik/stat/contracts/open-interest-volume"
  let m := codec.S2M req
  c.client.call std http codec now "GET" p false [m]

/-- The method `TradeData.GetOptionsOpenInterestAndVolume`. -/
def TradeData.GetOptionsOpenInterestAndVolume {Req V Err : Type} (std : GoStd) (http : HttpEnv Err)
    (codec : Codec Req V Err) (c : TradeData) (now : Int) (req : Req) : CallResult V Err :=
  let p := "/api/v5/rubik/stat/option/open-interest-volume"
  let m := codec.S2M req
  c.client.call std http codec now "GET" p false [m]

/-- The method `TradeData.GetPutCallRatio`. -/
def TradeData.GetPutCallRatio {Req V Err : Type} (std : GoStd) (http : HttpEnv Err)
    (codec : Codec Req V Err) (c : TradeData) (now : Int) (req : Req) : CallResult V Err :=
  let p := "/api/v5/rubik/stat/option/open-interest-volume-ratio"
  let m := codec.S2M req
  c.client.call std http codec now "GET" p false [m]

/-- The method `TradeData.GetOpenInterestAndVolumeExpiry`. -/
def TradeData.GetOpenInterestAndVolumeExpiry {Req V Err : Type} (std : GoStd) (http : HttpEnv Err)
    (codec : Codec Req V Err) (c : TradeData) (now : Int) (req : Req) : CallResult V Err :=
  let p := "/api/v5/rubik/stat/option/open-interest-volume-expiry"
  let m := codec.S2M req
  c.client.call std http codec now "GET" p false [m]

/-- The method `TradeData.GetOpenInterestAndVolumeStrike`. -/
def TradeData.GetOpenInterestAndVolumeStrike {Req V Err : Type} (std : GoStd) (http : HttpEnv Err)
    (codec : Codec Req V Err) (c : TradeData) (now : Int) (req : Req) : CallResult V Err :=
  let p := "/api/v5/rubik/stat/option/open-interest-volume-strike"
  let m := codec.S2M req
  c.client.call std http codec now "GET" p false [m]

/-- The method `TradeData.GetTakerFlow`. -/
def TradeData.GetTakerFlow {Req V Err : Type} (std : GoStd) (http : HttpEnv Err)
    (codec : Codec Req V Err) (c : TradeData) (now : Int) (req : Req) : CallResult V Err :=
  let p := "/api/v5/rubik/stat/option/taker-block-volume"
  let m := codec.S2M req
  c.client.call std http codec now "GET" p false [m]

/-! ## The Go layout of the timestamp -/

/-- The decimal digit character of `n % 10`. -/
def digitChar (n : Nat) : Char :=
  Char.ofNat (48 + n % 10)

/-- The helper `appendInt(b, x, width)` of package `time`: the decimal of `x`, zero
padded to `width`, with the two fast paths of the library for two and four digits. -/
def appendInt (x : Int) (width : Nat) : List Char :=
  let sign : List Char := if x < 0 then ['-'] else []
  let u := x.natAbs
  if width = 2 ∧ u < 100 then sign ++ [digitChar (u / 10), digitChar u]
  else if width = 4 ∧ u < 10000 then
    sign ++ [digitChar (u / 1000), digitChar (u / 100), digitChar (u / 10), digitChar u]
  else
    sign ++ List.replicate (width - (Nat.toDigits 10 u).length) '0' ++ Nat.toDigits 10 u

/-- The nine zero-padded decimal digits of a nanosecond count below `10^9`
(`appendInt(b, nanosec, 9)`). -/
def nanoDigits (nanosec : Nat) : List Char :=
  [digitChar (nanosec / 100000000), digitChar (nanosec / 10000000),
   digitChar (nanosec / 1000000), digitChar (nanosec / 100000), digitChar (nanosec / 10000),
   digitChar (nanosec / 1000), digitChar (nanosec / 100), digitChar (nanosec / 10),
   digitChar nanosec]

/-- The helper `appendNano` of package `time` for a fractional-second field of `n`
digits: with `trim` (a field written with nines, `.999`) nothing is written when
the nanoseconds are zero, and trailing zeros and then a trailing dot are cut;
without `trim` (a field written with zeros, `.000`) all `n` digits are written. -/
def appendNano (nanosec : Nat) (n : Nat) (trim : Bool) : List Char :=
  if trim && (n == 0 || nanosec == 0) then []
  else
    let b := '.' :: (nanoDigits nanosec).take n
    if trim then
      let b := (b.reverse.dropWhile (fun ch => ch == '0')).reverse
      if b.getLast? = some '.' then b.dropLast else b
    else b

/-- The calendar fields of an instant. -/
structure Civil where
  year : Int
  month : Int
  day : Int
  hour : Int
  minute : Int
  second : Int
  nanosecond : Int

/-- The UTC calendar fields of the instant `t`, in nanoseconds since
1970-01-01T00:00:00Z (proleptic Gregorian calendar; days are counted from
0000-03-01 in eras of 400 years). -/
def civilOf (t : Int) : Civil :=
  let secs := t / 1000000000
  let days := secs / 86400
  let rem := secs % 86400
  let z := days + 719468
  let era := z / 146097
  let doe := z % 146097
  let yoe := (doe - doe / 1460 + doe / 36524 - doe / 146096) / 365
  let y := yoe + era * 400
  let doy := doe - (365 * yoe + yoe / 4 - yoe / 100)
  let mp := (5 * doy + 2) / 153
  let m := if mp < 10 then mp + 3 else mp - 9
  { year := if m ≤ 2 then y + 1 else y,
    month := m,
    day := doy - (153 * mp + 2) / 5 + 1,
    hour := rem / 3600,
    minute := rem % 3600 / 60,
    second := rem % 60,
    nanosecond := t % 1000000000 }

/-- The method `Time.Format` on the characters of a layout made of the fields
`2006`, `01`, `02`, `15`, `04`, `05`, `.999`, `.000`, `Z07:00` and literal
characters, for a time in UTC (the zone field `Z07:00` prints `Z`). -/
def formatChars (cv : Civil) : List Char → List Char
  | '2' :: '0' :: '0' :: '6' :: rest => appendInt cv.year 4 ++ formatChars cv rest
  | '0' :: '1' :: rest => appendInt cv.month 2 ++ formatChars cv rest
  | '0' :: '2' :: rest => appendInt cv.day 2 ++ formatChars cv rest
  | '1' :: '5' :: rest => appendInt cv.hour 2 ++ formatChars cv rest
  | '0' :: '4' :: rest => appendInt cv.minute 2 ++ formatChars cv rest
  | '0' :: '5' :: rest => appendInt cv.second 2 ++ formatChars cv rest
  | '.' :: '9' :: '9' :: '9' :: rest =>
    appendNano cv.nanosecond.toNat 3 true ++ formatChars cv rest
  | '.' :: '0' :: '0' :: '0' :: rest =>
    appendNano cv.nanosecond.toNat 3 false ++ formatChars cv rest
  | 'Z' :: '0' :: '7' :: ':' :: '0' :: '0' :: rest => 'Z' :: formatChars cv rest
  | ch :: rest => ch :: formatChars cv rest
  | [] => []

/-- The call `t.Format(layout)` for an instant `t` in UTC. -/
def goTimeFormat (layout : String) (t : Int) : String :=
  String.mk (formatChars (civilOf t) layout.data)

/-- The library functions of the signer with `Time.Format` as modelled here. -/
def goStd (hmacSHA256 : Bytes → Bytes → Bytes) (base64StdEncode : Bytes → String) : GoStd :=
  { timeFormat := goTimeFormat, hmacSHA256 := hmacSHA256, base64StdEncode := base64StdEncode }

/-- A character list of a given shape: `d` in the shape stands for a decimal digit,
every other character for itself. -/
def hasShape : List Char → List Char → Bool
  | [], [] => true
  | p :: ps, ch :: cs =>
    (if p = 'd' then decide (48 ≤ ch.toNat ∧ ch.toNat ≤ 57) else decide (ch = p)) &&
      hasShape ps cs
  | _, _ => false

/-! ## Vocabulary for the statements on `Do`, `sign` and the endpoints -/

/-- The signature as a function of the secret key, the timestamp and the three
request inputs: Base64 of the HMAC-SHA256 of the bytes of
`ts + method + path + body`. -/
def signatureOf (std : GoStd) (secretKey : Bytes) (ts method path body : String) : String :=
  std.base64StdEncode (std.hmacSHA256 secretKey (stringBytes (ts ++ method ++ path ++ body)))

/-- The four authentication headers of a private call, in the order `Do` adds
them, for the pair `sign` returns at the signed path and body. -/
def ClientRest.authHeader (std : GoStd) (c : ClientRest) (now : Int)
    (method path body : String) : List (String × String) :=
  [("OK-ACCESS-KEY", c.apiKey), ("OK-ACCESS-PASSPHRASE", c.passphrase),
   ("OK-ACCESS-SIGN", (c.sign std now method path body).2),
   ("OK-ACCESS-TIMESTAMP", (c.sign std now method path body).1)]

/-- The request after the tail of `Do`: the authentication headers when the call
is private, then the simulated-trading header when the destination is the demo
server. -/
def ClientRest.attach (std : GoStd) (c : ClientRest) (now : Int) (method path body : String)
    (isPrivate : Bool) (r : Request) : Request :=
  { r with header := r.header ++
      (if isPrivate then c.authHeader std now method path body else []) ++
      (if c.destination = Destination.DemoServer then [("x-simulated-trading", "1")] else []) }

/-- The pairs `Do` adds to the query for a parameter map: one per entry, the value
without its double quotes. -/
def queryPairs (m : Params) : Values :=
  m.map (fun kv => (kv.1, stripQuotes kv.2))

/-- An HTTP layer for examples: every request can be built, URLs carry no query of
their own, nothing is escaped, a parameter map is serialised as `?` for every entry
between braces, and the venue answers every request with status 200 and the given
body. -/
def exampleHttp (body : Bytes) : HttpEnv String :=
  { newRequestError := fun _ _ => none,
    rawQueryOf := fun _ => "",
    parseQuery := fun _ => [],
    queryEscape := fun s => s,
    jsonMarshal := fun m => Except.ok ("\x7b" ++ String.mk (m.map (fun _ => '?')) ++ "\x7d"),
    clientDo := fun _ => Except.ok { StatusCode := 200, Body := body } }

/-- A response type for examples: the bare envelope. The decoder reads the code
from the first byte of the body and fails on an empty body. -/
def exampleCodec : Codec Params responses.Basic String :=
  { S2M := fun req => req,
    IP := fun _ => [],
    jsonDecode := fun body v =>
      match body with
      | [] => (v, some "unexpected end of JSON input")
      | code :: _ => ({ Code := code, Msg := "venue error" }, none),
    assertBasicI := fun v => some v.toBasicI,
    zero := { Code := 0, Msg := "" } }

/-- A client for examples, on the live venue. -/
def exampleClient : ClientRest :=
  { apiKey := "key", secretKey := [1, 2, 3], passphrase := "pass",
    destination := Destination.NormalServer, baseURL := "https://www.okex.com",
    serverTimeDiff := 0 }

/-- Library functions for examples: the digest is the message itself and the
encoding writes one character per byte. -/
def exampleStd : GoStd :=
  goStd (fun _ msg => msg) (fun b => String.mk (b.map Char.ofNat))

/-- The fractional-second field `.999` for a count of milliseconds: the dot and the
three digits, with trailing zeros and then a trailing dot cut. -/
def fracMillis (ms : Nat) : List Char :=
  let b := ['.', digitChar (ms / 100), digitChar (ms / 10), digitChar ms]
  let b := (b.reverse.dropWhile (fun ch => ch == '0')).reverse
  if b.getLast? = some '.' then b.dropLast else b

/-! ## Lemmas on channels and on the shared case body -/

section Lemmas

variable {S K Val : Type} [DecidableEq K]

theorem Heap_push_same (h : Heap K Val) (k : K) (c : Sink) (v : Val) :
    (h.push k c v) k c = { cap := (h k c).cap, queue := (h k c).queue ++ [v] } := by
  simp [Heap.push]

theorem Heap_push_other (h : Heap K Val) (k k2 : K) (c c2 : Sink) (v : Val)
    (hne : ¬ (k2 = k ∧ c2 = c)) : (h.push k c v) k2 c2 = h k2 c2 := by
  simp only [Heap.push, if_neg hne]

theorem Heap_push_inj (h : Heap K Val) (k k2 : K) (c c2 : Sink) (v v2 : Val)
    (heq : h.push k c v = h.push k2 c2 v2) : k = k2 ∧ c = c2 ∧ v = v2 := by
  have h1 := congrFun (congrFun heq k) c
  rw [Heap_push_same] at h1
  by_cases hkc : k = k2 ∧ c = c2
  · obtain ⟨rfl, rfl⟩ := hkc
    rw [Heap_push_same] at h1
    have h2 := congrArg (fun x => x.queue) h1
    simp at h2
    exact ⟨rfl, rfl, h2⟩
  · rw [Heap_push_other h k2 k c2 c v2 hkc] at h1
    have h2 := congrArg (fun x => x.queue.length) h1
    simp at h2

theorem sendReturnTrue_room (s : S) (h : Heap K Val) (k : K) (c : Sink) (v : Val)
    (hroom : (h k c).full = false) :
    sendReturnTrue s h k c v = Outcome.returned true s (h.push k c v) := by
  simp [sendReturnTrue, hroom]

theorem sendReturnTrue_full (s : S) (h : Heap K Val) (k : K) (c : Sink) (v : Val)
    (hfull : (h k c).full = true) :
    sendReturnTrue s h k c v = (Outcome.blocked : Outcome S K Val) := by
  simp [sendReturnTrue, hfull]

theorem deliver_undecodable (unmarshal : K → Bytes → Option Val) (s : S) (h : Heap K Val) (k : K)
    (sink : Option Sink) (data : Bytes) (hdec : unmarshal k data = none) :
    deliver unmarshal s h k sink data = Outcome.returned false s h := by
  cases sink <;> simp [deliver, hdec]

theorem deliver_some (unmarshal : K → Bytes → Option Val) (s : S) (h : Heap K Val) (k : K)
    (c : Sink) (data : Bytes) (v : Val) (hdec : unmarshal k data = some v) :
    deliver unmarshal s h k (some c) data = sendReturnTrue s h k c v := by
  simp [deliver, hdec]

/-- A return of `true` out of the shared case body: the sink is installed, the
payload decodes and the decoded value is the one value that entered the sink. -/
theorem deliver_true (unmarshal : K → Bytes → Option Val) (s s2 : S) (h h2 : Heap K Val) (k : K)
    (sink : Option Sink) (data : Bytes)
    (hret : deliver unmarshal s h k sink data = Outcome.returned true s2 h2) :
    ∃ c v, sink = some c ∧ unmarshal k data = some v ∧ (h k c).full = false ∧ s2 = s ∧
      h2 = h.push k c v := by
  cases sink with
  | none => simp [deliver] at hret
  | some c =>
    cases hdec : unmarshal k data with
    | none => simp [deliver, hdec] at hret
    | some v =>
      rw [deliver_some unmarshal s h k c data v hdec] at hret
      unfold sendReturnTrue at hret
      by_cases hf : (h k c).full = true
      · simp [hf] at hret
      · simp [hf] at hret
        exact ⟨c, v, rfl, rfl, by simpa using hf, hret.1.symm, hret.2.symm⟩

end Lemmas

/-- The method `Private.Process` as guard, channel lookup, family table and shared
case body. -/
theorem Private_Process_eq {Val : Type} (unmarshal : PrivKind → Bytes → Option Val) (p : Private)
    (h : Heap PrivKind Val) (data : Bytes) (e : Basic) :
    Private.Process unmarshal p h data e =
      if e.isPush = true then
        match e.channel with
        | none => Outcome.returned false p h
        | some ch =>
          match Private.family ch with
          | none => Outcome.returned false p h
          | some k => deliver unmarshal p h k (p.sink k) data
      else Outcome.returned false p h := by
  unfold Private.Process Basic.isPush
  split
  · cases hch : e.channel with
    | none => rfl
    | some ch =>
      simp only [Private.family]
      split_ifs <;> rfl
  · rfl

/-- The method `Public.Process` as guard, channel lookup, the table
`Public.selected` and shared case body. -/
theorem Public_Process_eq {Val : Type} (unmarshal : PubKind → Bytes → Option Val) (p : Public)
    (h : Heap PubKind Val) (data : Bytes) (e : Basic) :
    Public.Process unmarshal p h data e =
      if e.isPush = true then
        match e.channel with
        | none => Outcome.returned false p h
        | some ch =>
          match Public.selected ch with
          | none => Outcome.returned false p h
          | some k => deliver unmarshal p h k (p.sink k) data
      else Outcome.returned false p h := by
  unfold Public.Process
  by_cases hg : e.isPush = true
  · have hg2 : (e.Event == "" && e.Arg.isSome && e.Data != [] &&
        decide (e.Data.length > 0)) = true := hg
    rw [if_pos hg2, if_pos hg]
    cases hch : e.channel with
    | none => rfl
    | some ch =>
      show _ = (match Public.selected ch with
        | none => Outcome.returned false p h
        | some k => deliver unmarshal p h k (p.sink k) data)
      unfold Public.selected Public.fallbackTests
      simp only [firstMatchIn]
      by_cases h_instruments : ch = "instruments"
      · rw [if_pos h_instruments, if_pos h_instruments]; rfl
      rw [if_neg h_instruments, if_neg h_instruments]
      by_cases h_tickers : ch = "tickers"
      · rw [if_pos h_tickers, if_pos h_tickers]; rfl
      rw [if_neg h_tickers, if_neg h_tickers]
      by_cases h_open_interest : ch = "open-interest"
      · rw [if_pos h_open_interest, if_pos h_open_interest]; rfl
      rw [if_neg h_open_interest, if_neg h_open_interest]
      by_cases h_trades : ch = "trades"
      · rw [if_pos h_trades, if_pos h_trades]; rfl
      rw [if_neg h_trades, if_neg h_trades]
      by_cases h_estimated_price : ch = "estimated-price"
      · rw [if_pos h_estimated_price, if_pos h_estimated_price]; rfl
      rw [if_neg h_estimated_price, if_neg h_estimated_price]
      by_cases h_mark_price : ch = "mark-price"
      · rw [if_pos h_mark_price, if_pos h_mark_price]; rfl
      rw [if_neg h_mark_price, if_neg h_mark_price]
      by_cases h_price_limit : ch = "price-limit"
      · rw [if_pos h_price_limit, if_pos h_price_limit]; rfl
      rw [if_neg h_price_limit, if_neg h_price_limit]
      by_cases h_opt_summary : ch = "opt-summary"
      · rw [if_pos h_opt_summary, if_pos h_opt_summary]; rfl
      rw [if_neg h_opt_summary, if_neg h_opt_summary]
      by_cases h_funding_rate : ch = "funding-rate"
      · rw [if_pos h_funding_rate, if_pos h_funding_rate]; rfl
      rw [if_neg h_funding_rate, if_neg h_funding_rate]
      by_cases h_index_tickers : ch = "index-tickers"
      · rw [if_pos h_index_tickers, if_pos h_index_tickers]; rfl
      rw [if_neg h_index_tickers, if_neg h_index_tickers]
      by_cases h_bbo_tbt : ch = "bbo-tbt"
      · rw [if_pos h_bbo_tbt, if_pos h_bbo_tbt]; rfl
      rw [if_neg h_bbo_tbt, if_neg h_bbo_tbt]
      by_cases c_mark_price_candle : stringsContains (fmtSprint ch) "mark-price-candle" = true
      · rw [if_pos c_mark_price_candle, if_pos c_mark_price_candle]; rfl
      rw [if_neg c_mark_price_candle, if_neg c_mark_price_candle]
      by_cases c_index_candle : stringsContains (fmtSprint ch) "index-candle" = true
      · rw [if_pos c_index_candle, if_pos c_index_candle]; rfl
      rw [if_neg c_index_candle, if_neg c_index_candle]
      by_cases c_candle : stringsContains (fmtSprint ch) "candle" = true
      · rw [if_pos c_candle, if_pos c_candle]; rfl
      rw [if_neg c_candle, if_neg c_candle]
      by_cases c_books : stringsContains (fmtSprint ch) "books" = true
      · rw [if_pos c_books, if_pos c_books]; rfl
      rw [if_neg c_books, if_neg c_books]
  · have hg2 : ¬ (e.Event == "" && e.Arg.isSome && e.Data != [] &&
        decide (e.Data.length > 0)) = true := hg
    rw [if_neg hg2, if_neg hg]

theorem Private_family_name (k : PrivKind) : Private.family k.name = some k := by
  cases k <;> decide

theorem Private_family_eq_some (ch : String) (k : PrivKind) (hf : Private.family ch = some k) :
    ch = k.name := by
  unfold Private.family at hf
  split_ifs at hf with h1 h2 h3 h4 <;> simp at hf <;> subst hf <;> simp [PrivKind.name, *]

theorem Public_selected_name (k : PubKind) (n : String) (hn : k.name = some n)
    (hk : k ≠ PubKind.FundingRate) : Public.selected n = some k := by
  cases k <;> simp [PubKind.name] at hn <;> first | exact absurd rfl hk | (subst hn; decide)

/-! ## Routing of push frames by `Public.Process` -/

/-- Fixed-name routing, all families but funding-rate: when the sink of family `k`
is installed and has room, a push frame on the fixed channel name of `k` whose
payload decodes as `k` puts exactly that decoded value on the sink of `k` and
returns `true`. -/
theorem Public_Process_fixed_name_delivers {Val : Type}
    (unmarshal : PubKind → Bytes → Option Val) (p : Public) (h : Heap PubKind Val)
    (data : Bytes) (e : Basic) (k : PubKind) (n : String) (c : Sink) (v : Val)
    (hk : k ≠ PubKind.FundingRate) (hn : k.name = some n)
    (hpush : e.isPush = true) (hch : e.channel = some n)
    (hsink : p.sink k = some c) (hdec : unmarshal k data = some v)
    (hroom : (h k c).full = false) :
    Public.Process unmarshal p h data e = Outcome.returned true p (h.push k c v) := by
  rw [Public_Process_eq, if_pos hpush, hch]
  simp only [Public_selected_name k n hn hk, hsink]
  rw [deliver_some unmarshal p h k c data v hdec, sendReturnTrue_room p h k c v hroom]

/-- Claim C1, at the funding-rate family: the case `"funding-rate"` of
`Public.Process` reads the opt-summary sink and decodes as `OPTIONSummary`. After
`FundingRate(req, ch)` on a fresh `Public` the sink `frCh` is installed, yet a
funding-rate push frame returns `false` and leaves every channel untouched,
whatever the payload; and once `OPTIONSummary(req, ch2)` installed a sink as well,
the frame is decoded as an `OPTIONSummary` and ends on that sink. -/
theorem Public_Process_funding_rate_misrouted {W Req Err Val : Type} (env : WsEnv W Req Err)
    (w : W) (req : Req) (unmarshal : PubKind → Bytes → Option Val) (h : Heap PubKind Val)
    (data : Bytes) (c c2 : Sink) :
    ((NewPublic.FundingRate env w req [some c]).1.sink PubKind.FundingRate = some c ∧
      Public.Process unmarshal (NewPublic.FundingRate env w req [some c]).1 h data
          (pushFrame "funding-rate") =
        Outcome.returned false (NewPublic.FundingRate env w req [some c]).1 h) ∧
    (((NewPublic.FundingRate env w req [some c]).1.OPTIONSummary env w req [some c2]).1.sink
        PubKind.FundingRate = some c ∧
      Public.Process unmarshal
          ((NewPublic.FundingRate env w req [some c]).1.OPTIONSummary env w req [some c2]).1
          h data (pushFrame "funding-rate") =
        deliver unmarshal
          ((NewPublic.FundingRate env w req [some c]).1.OPTIONSummary env w req [some c2]).1
          h PubKind.OPTIONSummary (some c2) data) := by
  refine ⟨⟨rfl, ?_⟩, rfl, ?_⟩
  · rw [Public_Process_eq]; rfl
  · rw [Public_Process_eq]; rfl

/-! ## Routing of push frames by `Private.Process` -/

/-- Claim C2 as stated fails at a full sink: a positions frame whose payload
decodes, with the positions sink installed and holding one value in a buffer of
one, meets every condition of the claim, yet `Private.Process` neither returns
`true` nor `false`: it is parked in the send. -/
theorem Private_Process_full_sink_not_returned :
    (pushFrame "positions").isPush = true ∧
    (pushFrame "positions").channel = some PrivKind.Position.name ∧
    Private.allInstalled.sink PrivKind.Position = some 1 ∧
    (fun (_ : PrivKind) (d : Bytes) => some d) PrivKind.Position [1] = some [1] ∧
    Private.Process (fun _ d => some d) Private.allInstalled
        (fun _ _ => { cap := 1, queue := [[0]] }) [1] (pushFrame "positions") =
      Outcome.blocked := by
  refine ⟨by decide, by decide, rfl, rfl, ?_⟩
  rw [Private_Process_eq]
  rfl

/-- Claim C2, amended: `Private.Process` returns `true` having put exactly one
value, decoded as the type of family `k`, on the sink of `k`, if and only if the
frame is a push frame, `arg.channel` is the name of `k`, the sink of `k` is
installed and has room, and the payload decodes as the type of `k`; when all of
this holds but the sink is full, `Process` is parked in the send and does not
return; and when frame, channel, sink and payload fit no family it returns `false`
and every channel is as before. -/
theorem Private_Process_iff {Val : Type} (unmarshal : PrivKind → Bytes → Option Val)
    (p : Private) (h : Heap PrivKind Val) (data : Bytes) (e : Basic) :
    (∀ k c v,
      (Private.Process unmarshal p h data e = Outcome.returned true p (h.push k c v) ∧
          p.sink k = some c ∧ unmarshal k data = some v) ↔
        (e.isPush = true ∧ e.channel = some k.name ∧ p.sink k = some c ∧
          unmarshal k data = some v ∧ (h k c).full = false)) ∧
    (∀ k c v, e.isPush = true → e.channel = some k.name → p.sink k = some c →
      unmarshal k data = some v → (h k c).full = true →
      Private.Process unmarshal p h data e = Outcome.blocked) ∧
    ((¬ ∃ k c v, e.isPush = true ∧ e.channel = some k.name ∧ p.sink k = some c ∧
          unmarshal k data = some v) →
      Private.Process unmarshal p h data e = Outcome.returned false p h) := by
  rw [Private_Process_eq]
  refine ⟨fun k c v => ⟨?_, ?_⟩, ?_, ?_⟩
  · rintro ⟨hret, hsink, hdec⟩
    by_cases hpush : e.isPush = true
    · rw [if_pos hpush] at hret
      cases hch : e.channel with
      | none => simp [hch] at hret
      | some ch =>
        cases hf : Private.family ch with
        | none => simp [hch, hf] at hret
        | some k2 =>
          simp only [hch, hf] at hret
          obtain ⟨c2, v2, _, _, hroom, _, hh⟩ := deliver_true unmarshal p p h _ k2 _ data hret
          obtain ⟨hk, hc, _⟩ := Heap_push_inj h k k2 c c2 v v2 hh
          subst hk
          subst hc
          exact ⟨hpush, by rw [Private_family_eq_some ch k hf], hsink, hdec, hroom⟩
    · rw [if_neg hpush] at hret
      simp at hret
  · rintro ⟨hpush, hch, hsink, hdec, hroom⟩
    refine ⟨?_, hsink, hdec⟩
    rw [if_pos hpush, hch]
    simp only [Private_family_name, hsink]
    rw [deliver_some unmarshal p h k c data v hdec, sendReturnTrue_room p h k c v hroom]
  · intro k c v hpush hch hsink hdec hfull
    rw [if_pos hpush, hch]
    simp only [Private_family_name, hsink]
    rw [deliver_some unmarshal p h k c data v hdec, sendReturnTrue_full p h k c v hfull]
  · intro hno
    by_cases hpush : e.isPush = true
    · rw [if_pos hpush]
      cases hch : e.channel with
      | none => rfl
      | some ch =>
        cases hf : Private.family ch with
        | none => simp only [hf]
        | some k =>
          simp only [hf]
          cases hsink : p.sink k with
          | none => rfl
          | some c =>
            cases hdec : unmarshal k data with
            | none => exact deliver_undecodable unmarshal p h k _ data hdec
            | some v =>
              exact absurd ⟨k, c, v, hpush, by rw [hch, Private_family_eq_some ch k hf],
                hsink, hdec⟩ hno
    · rw [if_neg hpush]

/-- Witness of `Private_Process_iff`: an account frame with the account sink
installed and empty. -/
theorem Private_Process_iff_witness :
    Private.Process (fun _ d => some d)
        { aCh := some 0, pCh := none, bnpCh := none, oCh := none }
        (emptyHeap PrivKind Bytes 1) [1] (pushFrame "account") =
      Outcome.returned true { aCh := some 0, pCh := none, bnpCh := none, oCh := none }
        ((emptyHeap PrivKind Bytes 1).push PrivKind.Account 0 [1]) :=
  (((Private_Process_iff (fun _ d => some d)
      { aCh := some 0, pCh := none, bnpCh := none, oCh := none }
      (emptyHeap PrivKind Bytes 1) [1] (pushFrame "account")).1 PrivKind.Account 0 [1]).2
    ⟨by decide, by decide, rfl, rfl, rfl⟩).1

/-! ## Frames that are not routed -/

theorem containsChars_iff (l sub : List Char) : containsChars l sub = true ↔ sub <:+: l := by
  induction l with
  | nil => simp [containsChars]
  | cons c cs ih =>
    simp only [containsChars, Bool.or_eq_true, ih, List.isPrefixOf_iff_prefix,
      List.infix_cons_iff]

theorem stringsContains_iff (s sub : String) :
    stringsContains s sub = true ↔ sub.data <:+: s.data :=
  containsChars_iff s.data sub.data

/-- A string that contains `big` contains every substring of `big`. -/
theorem stringsContains_trans (s big small : String) (hsb : stringsContains big small = true)
    (hs : stringsContains s big = true) : stringsContains s small = true := by
  rw [stringsContains_iff] at *
  exact List.IsInfix.trans hsb hs

theorem stringsContains_candle_of_mark (s : String)
    (hs : stringsContains s "candle" = false) :
    stringsContains s "mark-price-candle" = false := by
  cases hm : stringsContains s "mark-price-candle" with
  | false => rfl
  | true =>
    rw [stringsContains_trans s "mark-price-candle" "candle" (by decide) hm] at hs
    exact absurd hs (by simp)

theorem stringsContains_candle_of_index (s : String)
    (hs : stringsContains s "candle" = false) :
    stringsContains s "index-candle" = false := by
  cases hm : stringsContains s "index-candle" with
  | false => rfl
  | true =>
    rw [stringsContains_trans s "index-candle" "candle" (by decide) hm] at hs
    exact absurd hs (by simp)

/-- Outside the case labels, `Public.selected` is the chain of substring tests. -/
theorem Public_selected_default (ch : String) (hnf : ch ∉ Public.fixedNames) :
    Public.selected ch = firstMatchIn Public.fallbackTests (fmtSprint ch) := by
  simp only [Public.fixedNames, List.mem_cons, List.mem_singleton, List.not_mem_nil, or_false,
    not_or] at hnf
  obtain ⟨h1, h2, h3, h4, h5, h6, h7, h8, h9, h10, h11⟩ := hnf
  unfold Public.selected
  rw [if_neg h1, if_neg h2, if_neg h3, if_neg h4, if_neg h5, if_neg h6, if_neg h7, if_neg h8,
    if_neg h9, if_neg h10, if_neg h11]

/-- The frames `Public.Process` drops: it returns `false` and leaves every channel
and the receiver as they were whenever the frame is an acknowledgment (`event`
set), a keepalive (`arg` absent or `data` empty), has no `channel` key in `arg`,
names a channel that is no case label and contains neither `candle` nor `books`, or
names a channel for which the sink field tested by the case taken is `nil` (for
`funding-rate` that field is the opt-summary sink). -/
theorem Public_Process_not_routable {Val : Type} (unmarshal : PubKind → Bytes → Option Val)
    (p : Public) (h : Heap PubKind Val) (data : Bytes) (e : Basic)
    (hnot : e.Event ≠ "" ∨ e.Arg = none ∨ e.Data = [] ∨
      (∃ a, e.Arg = some a ∧ a.lookup "channel" = none) ∨
      (∃ ch, e.channel = some ch ∧ ch ∉ Public.fixedNames ∧
        stringsContains ch "candle" = false ∧ stringsContains ch "books" = false) ∨
      (∃ ch k, e.channel = some ch ∧ Public.selected ch = some k ∧ p.sink k = none)) :
    Public.Process unmarshal p h data e = Outcome.returned false p h := by
  rw [Public_Process_eq]
  by_cases hpush : e.isPush = true
  swap
  · rw [if_neg hpush]
  rw [if_pos hpush]
  have hp := hpush
  simp only [Basic.isPush, Bool.and_eq_true, beq_iff_eq, bne_iff_ne, ne_eq,
    decide_eq_true_eq] at hp
  obtain ⟨⟨⟨hev, harg⟩, hdata⟩, _⟩ := hp
  rcases hnot with hE | hA | hD | ⟨a, ha, hl⟩ | ⟨ch, hch, hnf, hc, hb⟩ | ⟨ch, k, hch, hsel, hs⟩
  · exact absurd hev hE
  · rw [hA] at harg; simp at harg
  · exact absurd hD hdata
  · have : e.channel = none := by simp [Basic.channel, ha, hl]
    rw [this]
  · rw [hch]
    have hsel : Public.selected ch = none := by
      rw [Public_selected_default ch hnf]
      simp [Public.fallbackTests, firstMatchIn, fmtSprint, hc, hb,
        stringsContains_candle_of_mark ch hc, stringsContains_candle_of_index ch hc]
    simp only [hsel]
  · rw [hch]
    simp only [hsel, hs]
    rfl

/-- Witness of `Public_Process_not_routable`: a subscribe acknowledgment. -/
theorem Public_Process_not_routable_witness :
    Public.Process (fun _ d => some d) NewPublic (emptyHeap PubKind Bytes 1) []
        { Event := "subscribe", Arg := some [("channel", "tickers")], Data := [] } =
      Outcome.returned false NewPublic (emptyHeap PubKind Bytes 1) :=
  Public_Process_not_routable (fun _ d => some d) NewPublic (emptyHeap PubKind Bytes 1) []
    { Event := "subscribe", Arg := some [("channel", "tickers")], Data := [] }
    (Or.inl (by decide))

/-! ## The fallback for parameterised channel names -/

/-- The four candidate substrings have four different lengths. -/
theorem Public_fallbackTests_length_inj :
    ∀ a ∈ Public.fallbackTests, ∀ b ∈ Public.fallbackTests,
      a.1.length = b.1.length → a = b := by
  decide

/-- The chain of the source, longest substring first, picks the family of the
longest candidate the name contains. -/
theorem Public_firstMatch_eq_longestMatch (ch : String) :
    firstMatchIn Public.fallbackTests ch =
      (longestMatchIn Public.fallbackTests ch).map Prod.snd := by
  unfold longestMatchIn Public.fallbackTests
  simp only [firstMatchIn, List.filter]
  cases stringsContains ch "mark-price-candle" <;> cases stringsContains ch "index-candle" <;>
    cases stringsContains ch "candle" <;> cases stringsContains ch "books" <;> decide

/-- The longest-substring rule gives the same answer in whatever order the
candidates are listed. -/
theorem Public_longestMatch_perm (l : List (String × PubKind)) (ch : String)
    (hl : l.Perm Public.fallbackTests) :
    longestMatchIn l ch = longestMatchIn Public.fallbackTests ch := by
  unfold longestMatchIn
  have hperm := hl.filter (fun c => stringsContains ch c.1)
  cases hB : (Public.fallbackTests.filter (fun c => stringsContains ch c.1)).argmax
      (fun c => c.1.length) with
  | none =>
    rw [List.argmax_eq_none] at hB
    rw [hB] at hperm
    rw [List.argmax_eq_none]
    exact hperm.eq_nil
  | some m =>
    cases hA : (l.filter (fun c => stringsContains ch c.1)).argmax (fun c => c.1.length) with
    | none =>
      rw [List.argmax_eq_none] at hA
      rw [hA] at hperm
      have := hperm.symm.eq_nil
      rw [this] at hB
      simp at hB
    | some m2 =>
      have hmB : m ∈ Public.fallbackTests.filter (fun c => stringsContains ch c.1) :=
        List.argmax_mem hB
      have hm2A : m2 ∈ l.filter (fun c => stringsContains ch c.1) := List.argmax_mem hA
      have hmA := hperm.symm.subset hmB
      have hm2B := hperm.subset hm2A
      have h1 : m.1.length ≤ m2.1.length :=
        List.le_of_mem_argmax (f := fun c : String × PubKind => c.1.length) hmA hA
      have h2 : m2.1.length ≤ m.1.length :=
        List.le_of_mem_argmax (f := fun c : String × PubKind => c.1.length) hm2B hB
      have := Public_fallbackTests_length_inj m2 (List.mem_of_mem_filter hm2B) m
        (List.mem_of_mem_filter hmB) (le_antisymm h2 h1)
      rw [this]

/-- Claim C4 as stated fails twice. The name `foo` is no case label and contains
none of the four substrings: the fallback selects no family and the frame is
dropped even with every sink installed. And the choice rests on the order of the
tests: on `mark-price-candle1m` the chain of the source selects the mark-price
candlesticks, the same four tests tried with `candle` first select the plain
candlesticks. -/
theorem Public_fallback_not_total_nor_order_free :
    ("foo" ∉ Public.fixedNames ∧ Public.selected "foo" = none ∧
      Public.Process (fun _ d => some d) Public.allInstalled (emptyHeap PubKind Bytes 1) [1]
          (pushFrame "foo") =
        Outcome.returned false Public.allInstalled (emptyHeap PubKind Bytes 1)) ∧
    (Public.selected "mark-price-candle1m" = some PubKind.MarkPriceCandlesticks ∧
      firstMatchIn
          [("candle", PubKind.Candlesticks), ("books", PubKind.OrderBook),
           ("index-candle", PubKind.IndexCandlesticks),
           ("mark-price-candle", PubKind.MarkPriceCandlesticks)]
          "mark-price-candle1m" = some PubKind.Candlesticks) := by
  refine ⟨⟨by decide, by decide, ?_⟩, by decide, by decide⟩
  rw [Public_Process_eq]
  rfl

/-- Claim C4, amended: for a push frame whose channel name `ch` is no case label,
`Public.Process` selects the family of the longest of the four substrings
`mark-price-candle`, `index-candle`, `candle`, `books` that `ch` contains (the
chain tries them in that order), and that longest-substring choice is the same in
whatever order the candidates are listed; when `ch` contains at least one of the
four, the frame takes the case body of exactly that family, and when it contains
none the frame is dropped with `false`. -/
theorem Public_Process_fallback_longest {Val : Type}
    (unmarshal : PubKind → Bytes → Option Val) (p : Public) (h : Heap PubKind Val)
    (data : Bytes) (e : Basic) (ch : String)
    (hpush : e.isPush = true) (hch : e.channel = some ch) (hnf : ch ∉ Public.fixedNames) :
    Public.selected ch =
      (if stringsContains ch "mark-price-candle" then some PubKind.MarkPriceCandlesticks
       else if stringsContains ch "index-candle" then some PubKind.IndexCandlesticks
       else if stringsContains ch "candle" then some PubKind.Candlesticks
       else if stringsContains ch "books" then some PubKind.OrderBook
       else none) ∧
    Public.selected ch = (longestMatchIn Public.fallbackTests ch).map Prod.snd ∧
    (∀ l : List (String × PubKind), l.Perm Public.fallbackTests →
      longestMatchIn l ch = longestMatchIn Public.fallbackTests ch) ∧
    ((∃ t ∈ Public.fallbackTests, stringsContains ch t.1 = true) →
      ∃ t ∈ Public.fallbackTests, stringsContains ch t.1 = true ∧
        (∀ t2 ∈ Public.fallbackTests, stringsContains ch t2.1 = true →
          t2.1.length ≤ t.1.length) ∧
        Public.selected ch = some t.2 ∧
        Public.Process unmarshal p h data e = deliver unmarshal p h t.2 (p.sink t.2) data) ∧
    ((∀ t ∈ Public.fallbackTests, stringsContains ch t.1 = false) →
      Public.selected ch = none ∧
        Public.Process unmarshal p h data e = Outcome.returned false p h) := by
  have hsel : Public.selected ch = (longestMatchIn Public.fallbackTests ch).map Prod.snd := by
    rw [Public_selected_default ch hnf]
    exact Public_firstMatch_eq_longestMatch ch
  have hproc : Public.Process unmarshal p h data e =
      match Public.selected ch with
      | none => Outcome.returned false p h
      | some k => deliver unmarshal p h k (p.sink k) data := by
    rw [Public_Process_eq, if_pos hpush, hch]
  refine ⟨?_, hsel, fun l hl => Public_longestMatch_perm l ch hl, ?_, ?_⟩
  · rw [Public_selected_default ch hnf]
    rfl
  · rintro ⟨t0, ht0, hc0⟩
    have hmem0 : t0 ∈ Public.fallbackTests.filter (fun c => stringsContains ch c.1) :=
      List.mem_filter.2 ⟨ht0, hc0⟩
    cases hB : longestMatchIn Public.fallbackTests ch with
    | none =>
      unfold longestMatchIn at hB
      rw [List.argmax_eq_none] at hB
      rw [hB] at hmem0
      simp at hmem0
    | some t =>
      have hB2 := hB
      unfold longestMatchIn at hB2
      have hmem := List.mem_filter.1 (List.argmax_mem hB2)
      have hst : Public.selected ch = some t.2 := by rw [hsel, hB]; rfl
      refine ⟨t, hmem.1, hmem.2, ?_, hst, ?_⟩
      · intro t2 ht2 hc2
        exact List.le_of_mem_argmax (f := fun c : String × PubKind => c.1.length)
          (List.mem_filter.2 ⟨ht2, hc2⟩) hB2
      · rw [hproc, hst]
  · intro hnone
    have hB : longestMatchIn Public.fallbackTests ch = none := by
      unfold longestMatchIn
      rw [List.argmax_eq_none, List.filter_eq_nil_iff]
      intro t ht
      simp [hnone t ht]
    have hst : Public.selected ch = none := by rw [hsel, hB]; rfl
    exact ⟨hst, by rw [hproc, hst]⟩

/-- Witness of `Public_Process_fallback_longest`: the channel `candle1m` takes the
case body of the candlesticks family. -/
theorem Public_Process_fallback_longest_witness :
    Public.selected "candle1m" = some PubKind.Candlesticks :=
  ((Public_Process_fallback_longest (fun _ d => some d) Public.allInstalled
      (emptyHeap PubKind Bytes 1) [1] (pushFrame "candle1m") "candle1m"
      (by decide) (by decide) (by decide)).1).trans (by decide)

/-! ## Payloads that fail to decode -/

/-- A rejected payload on the case taken: a push frame that reaches a case body
whose sink field is installed and whose `json.Unmarshal` call fails makes
`Process`, public and private, return `false` with every channel and every sink
field as before; so the frame processed next is handled exactly as if the rejected
frame had never been processed. The sink and the decoder are those of the case
taken (for `funding-rate` the opt-summary sink and type). -/
theorem Process_undecodable_dropped {ValPub ValPriv : Type}
    (unmarshalPub : PubKind → Bytes → Option ValPub)
    (unmarshalPriv : PrivKind → Bytes → Option ValPriv) :
    (∀ (p : Public) (h : Heap PubKind ValPub) (data : Bytes) (e : Basic) (ch : String)
        (k : PubKind) (c : Sink),
      e.isPush = true → e.channel = some ch → Public.selected ch = some k →
      p.sink k = some c → unmarshalPub k data = none →
        Public.Process unmarshalPub p h data e = Outcome.returned false p h ∧
        ∀ (data2 : Bytes) (e2 : Basic),
          (Public.Process unmarshalPub p h data e).andThen
              (fun p2 h2 => Public.Process unmarshalPub p2 h2 data2 e2) =
            Public.Process unmarshalPub p h data2 e2) ∧
    (∀ (p : Private) (h : Heap PrivKind ValPriv) (data : Bytes) (e : Basic) (k : PrivKind)
        (c : Sink),
      e.isPush = true → e.channel = some k.name →
      p.sink k = some c → unmarshalPriv k data = none →
        Private.Process unmarshalPriv p h data e = Outcome.returned false p h ∧
        ∀ (data2 : Bytes) (e2 : Basic),
          (Private.Process unmarshalPriv p h data e).andThen
              (fun p2 h2 => Private.Process unmarshalPriv p2 h2 data2 e2) =
            Private.Process unmarshalPriv p h data2 e2) := by
  constructor
  · intro p h data e ch k c hpush hch hsel hsink hdec
    have hret : Public.Process unmarshalPub p h data e = Outcome.returned false p h := by
      rw [Public_Process_eq, if_pos hpush, hch]
      simp only [hsel]
      exact deliver_undecodable unmarshalPub p h k _ data hdec
    refine ⟨hret, fun data2 e2 => ?_⟩
    rw [hret]
    rfl
  · intro p h data e k c hpush hch hsink hdec
    have hret : Private.Process unmarshalPriv p h data e = Outcome.returned false p h := by
      rw [Private_Process_eq, if_pos hpush, hch]
      simp only [Private_family_name]
      exact deliver_undecodable unmarshalPriv p h k _ data hdec
    refine ⟨hret, fun data2 e2 => ?_⟩
    rw [hret]
    rfl

/-- Witness of `Process_undecodable_dropped`: a tickers frame whose payload the
decoder rejects, with every sink installed, is dropped. -/
theorem Process_undecodable_dropped_witness :
    Public.Process (fun _ d => if d = [] then none else some d) Public.allInstalled
        (emptyHeap PubKind Bytes 1) [] (pushFrame "tickers") =
      Outcome.returned false Public.allInstalled (emptyHeap PubKind Bytes 1) :=
  ((Process_undecodable_dropped (fun _ d => if d = [] then none else some d)
      (fun (_ : PrivKind) (d : Bytes) => if d = [] then none else some d)).1
    Public.allInstalled (emptyHeap PubKind Bytes 1) [] (pushFrame "tickers") "tickers"
    PubKind.Tickers 1 (by decide) (by decide) (by decide) rfl rfl).1

/-! ## Effect of the subscribe and unsubscribe methods on the sink fields -/

section FacadeLemmas

variable {W Req Err : Type}

theorem Public_subscribe_sink (env : WsEnv W Req Err) (k j : PubKind) (p : Public) (w : W)
    (req : Req) (reqs : List Req) (ch : List (Option Sink)) :
    (Public.subscribe env k p w req reqs ch).1.sink j =
      if j = k then setSink (p.sink k) ch else p.sink j := by
  cases k <;> cases j <;> rfl

theorem Public_unsubscribe_sink (env : WsEnv W Req Err) (k j : PubKind) (p : Public) (w : W)
    (req : Req) (rCh : List Bool) :
    (Public.unsubscribe env k p w req rCh).1.sink j =
      if j = k then clearSink (p.sink k) rCh else p.sink j := by
  cases k <;> cases j <;> rfl

theorem Private_subscribe_sink (env : WsEnv W Req Err) (k j : PrivKind) (p : Private) (w : W)
    (req : Req) (ch : List (Option Sink)) :
    (Private.subscribe env k p w req ch).1.sink j =
      if j = k then setSink (p.sink k) ch else p.sink j := by
  cases k <;> cases j <;> rfl

theorem Private_unsubscribe_sink (env : WsEnv W Req Err) (k j : PrivKind) (p : Private) (w : W)
    (req : Req) (rCh : List Bool) :
    (Private.unsubscribe env k p w req rCh).1.sink j =
      if j = k then clearSink (p.sink k) rCh else p.sink j := by
  cases k <;> cases j <;> rfl

end FacadeLemmas

theorem clearSink_eq (old : Option Sink) (rCh : List Bool) :
    clearSink old rCh = if rCh.head? = some true then none else old := by
  cases rCh with
  | nil => rfl
  | cons b t => cases b <;> simp [clearSink]

/-- The `switch` agrees with the family of the channel name everywhere but on
`funding-rate`. -/
theorem Public_selected_of_family (ch : String) (k : PubKind) (hf : Public.family ch = some k)
    (hk : k ≠ PubKind.FundingRate) : Public.selected ch = some k := by
  by_cases hnf : ch ∈ Public.fixedNames
  · simp only [Public.fixedNames, List.mem_cons, List.mem_singleton, List.not_mem_nil,
      or_false] at hnf
    rcases hnf with h | h | h | h | h | h | h | h | h | h | h <;> subst h <;>
      first
        | (have h2 : some _ = some k := hf
           rw [← Option.some.inj h2]
           decide)
        | (have h2 : some PubKind.FundingRate = some k := hf
           exact absurd (Option.some.inj h2).symm hk)
  · rw [Public_selected_default ch hnf, fmtSprint, Public_firstMatch_eq_longestMatch]
    have hnf2 := hnf
    simp only [Public.fixedNames, List.mem_cons, List.mem_singleton, List.not_mem_nil, or_false,
      not_or] at hnf2
    obtain ⟨h1, h2, h3, h4, h5, h6, h7, h8, h9, h10, h11⟩ := hnf2
    unfold Public.family at hf
    rw [if_neg h1, if_neg h2, if_neg h3, if_neg h4, if_neg h5, if_neg h6, if_neg h7, if_neg h8,
      if_neg h9, if_neg h10, if_neg h11] at hf
    exact hf

/-! ## The funding-rate case: absent sink, rejected payload -/

/-- Every family but funding-rate: a push frame on a channel of family `k` is
dropped with `false`, channels and receiver unchanged, when the sink of `k` is not
installed, and also when it is installed and the payload fails to decode as the
type of `k`. -/
theorem Public_Process_dropped_by_family {Val : Type}
    (unmarshal : PubKind → Bytes → Option Val) (p : Public) (h : Heap PubKind Val)
    (data : Bytes) (e : Basic) (ch : String) (k : PubKind)
    (hk : k ≠ PubKind.FundingRate) (hch : e.channel = some ch)
    (hfam : Public.family ch = some k)
    (hdrop : p.sink k = none ∨ unmarshal k data = none) :
    Public.Process unmarshal p h data e = Outcome.returned false p h := by
  rw [Public_Process_eq]
  by_cases hpush : e.isPush = true
  · rw [if_pos hpush, hch]
    simp only [Public_selected_of_family ch k hfam hk]
    rcases hdrop with hs | hd
    · rw [hs]
      rfl
    · exact deliver_undecodable unmarshal p h k _ data hd
  · rw [if_neg hpush]

/-- Claim C3, at the funding-rate family: after `OPTIONSummary(req, ch)` alone the
funding-rate sink is not installed, yet a funding-rate push frame is not dropped:
`Public.Process` decodes it as an `OPTIONSummary`, puts the value on the
opt-summary sink and returns `true`. -/
theorem Public_Process_funding_rate_sink_absent :
    (NewPublic.OPTIONSummary quietEnv () [] [some 10]).1.sink PubKind.FundingRate = none ∧
    Public.family "funding-rate" = some PubKind.FundingRate ∧
    Public.Process (fun _ d => some d) (NewPublic.OPTIONSummary quietEnv () [] [some 10]).1
        (emptyHeap PubKind Bytes 1) [1] (pushFrame "funding-rate") =
      Outcome.returned true (NewPublic.OPTIONSummary quietEnv () [] [some 10]).1
        ((emptyHeap PubKind Bytes 1).push PubKind.OPTIONSummary 10 [1]) := by
  refine ⟨rfl, by decide, ?_⟩
  rw [Public_Process_eq]
  rfl

/-- Claim C5, at the funding-rate family: with the funding-rate sink and the
opt-summary sink installed, a funding-rate push frame whose payload fails to decode
as a `FundingRate` but decodes as an `OPTIONSummary` is not dropped:
`Public.Process` puts the `OPTIONSummary` value on the opt-summary sink and
returns `true`. -/
theorem Public_Process_funding_rate_undecodable_sent :
    ((NewPublic.FundingRate quietEnv () [] [some 11]).1.OPTIONSummary quietEnv () []
        [some 10]).1.sink PubKind.FundingRate = some 11 ∧
    (fun (k : PubKind) (d : Bytes) => if k = PubKind.FundingRate then none else some d)
        PubKind.FundingRate [1] = none ∧
    Public.Process
        (fun (k : PubKind) (d : Bytes) => if k = PubKind.FundingRate then none else some d)
        ((NewPublic.FundingRate quietEnv () [] [some 11]).1.OPTIONSummary quietEnv () []
          [some 10]).1
        (emptyHeap PubKind Bytes 1) [1] (pushFrame "funding-rate") =
      Outcome.returned true
        ((NewPublic.FundingRate quietEnv () [] [some 11]).1.OPTIONSummary quietEnv () []
          [some 10]).1
        ((emptyHeap PubKind Bytes 1).push PubKind.OPTIONSummary 10 [1]) := by
  refine ⟨rfl, rfl, ?_⟩
  rw [Public_Process_eq]
  rfl

/-! ## Subscribe followed by unsubscribe -/

/-- Claim C6 as stated fails: `UTickers(req)` without the clear flag leaves the
sink that `Tickers(req, ch)` installed, and a later tickers frame is still
delivered to it. -/
theorem Public_UTickers_keeps_sink :
    ((NewPublic.Tickers quietEnv () [] [some 1]).1.UTickers quietEnv () [] []).1.sink
        PubKind.Tickers = some 1 ∧
    Public.Process (fun _ d => some d)
        ((NewPublic.Tickers quietEnv () [] [some 1]).1.UTickers quietEnv () [] []).1
        (emptyHeap PubKind Bytes 1) [1] (pushFrame "tickers") =
      Outcome.returned true
        ((NewPublic.Tickers quietEnv () [] [some 1]).1.UTickers quietEnv () [] []).1
        ((emptyHeap PubKind Bytes 1).push PubKind.Tickers 1 [1]) := by
  refine ⟨rfl, ?_⟩
  rw [Public_Process_eq]
  rfl

/-- Claim C6, amended: a subscribe call followed by the unsubscribe call of the
same family with the clear flag `true` leaves the family without sink, and every
later push frame on a channel of that family is dropped with `false` and reaches no
channel (public families other than funding-rate, and all private families);
followed by an unsubscribe call without the flag, or with the flag `false`, the sink
is the one the family had after the subscribe call, and a later push frame on a
channel of the family whose payload decodes is still delivered to the sink the
subscribe call installed, when that sink has room (public families other than
funding-rate, and all private families). -/
theorem subscribe_unsubscribe_clear {W Req Err ValPub ValPriv : Type} (env : WsEnv W Req Err)
    (unmarshalPub : PubKind → Bytes → Option ValPub)
    (unmarshalPriv : PrivKind → Bytes → Option ValPriv)
    (w w2 : W) (req : Req) (reqs : List Req) (ch : List (Option Sink)) :
    (∀ (k : PubKind) (p : Public) (rest : List Bool),
      (Public.unsubscribe env k (Public.subscribe env k p w req reqs ch).1 w2 req
          (true :: rest)).1.sink k = none ∧
      (k ≠ PubKind.FundingRate →
        ∀ (h : Heap PubKind ValPub) (data : Bytes) (e : Basic) (chn : String),
          e.channel = some chn → Public.family chn = some k →
          Public.Process unmarshalPub
              (Public.unsubscribe env k (Public.subscribe env k p w req reqs ch).1 w2 req
                (true :: rest)).1 h data e =
            Outcome.returned false
              (Public.unsubscribe env k (Public.subscribe env k p w req reqs ch).1 w2 req
                (true :: rest)).1 h)) ∧
    (∀ (k : PubKind) (p : Public) (rCh : List Bool), rCh.head? ≠ some true →
      (Public.unsubscribe env k (Public.subscribe env k p w req reqs ch).1 w2 req rCh).1.sink k =
        (Public.subscribe env k p w req reqs ch).1.sink k) ∧
    (∀ (k : PrivKind) (p : Private) (rest : List Bool),
      (Private.unsubscribe env k (Private.subscribe env k p w req ch).1 w2 req
          (true :: rest)).1.sink k = none ∧
      ∀ (h : Heap PrivKind ValPriv) (data : Bytes) (e : Basic),
        e.channel = some k.name →
        Private.Process unmarshalPriv
            (Private.unsubscribe env k (Private.subscribe env k p w req ch).1 w2 req
              (true :: rest)).1 h data e =
          Outcome.returned false
            (Private.unsubscribe env k (Private.subscribe env k p w req ch).1 w2 req
              (true :: rest)).1 h) ∧
    (∀ (k : PrivKind) (p : Private) (rCh : List Bool), rCh.head? ≠ some true →
      (Private.unsubscribe env k (Private.subscribe env k p w req ch).1 w2 req rCh).1.sink k =
        (Private.subscribe env k p w req ch).1.sink k) ∧
    (∀ (k : PubKind) (p : Public) (s : Sink) (chRest : List (Option Sink)) (rCh : List Bool)
        (h : Heap PubKind ValPub) (data : Bytes) (e : Basic) (chn : String) (v : ValPub),
      k ≠ PubKind.FundingRate → rCh.head? ≠ some true → e.isPush = true →
      e.channel = some chn → Public.family chn = some k → unmarshalPub k data = some v →
      (h k s).full = false →
      Public.Process unmarshalPub
          (Public.unsubscribe env k (Public.subscribe env k p w req reqs (some s :: chRest)).1
            w2 req rCh).1 h data e =
        Outcome.returned true
          (Public.unsubscribe env k (Public.subscribe env k p w req reqs (some s :: chRest)).1
            w2 req rCh).1 (h.push k s v)) ∧
    (∀ (k : PrivKind) (p : Private) (s : Sink) (chRest : List (Option Sink)) (rCh : List Bool)
        (h : Heap PrivKind ValPriv) (data : Bytes) (e : Basic) (v : ValPriv),
      rCh.head? ≠ some true → e.isPush = true → e.channel = some k.name →
      unmarshalPriv k data = some v → (h k s).full = false →
      Private.Process unmarshalPriv
          (Private.unsubscribe env k (Private.subscribe env k p w req (some s :: chRest)).1
            w2 req rCh).1 h data e =
        Outcome.returned true
          (Private.unsubscribe env k (Private.subscribe env k p w req (some s :: chRest)).1
            w2 req rCh).1 (h.push k s v)) := by
  refine ⟨fun k p rest => ?_, fun k p rCh hflag => ?_, fun k p rest => ?_,
    fun k p rCh hflag => ?_, ?_, ?_⟩
  rotate_left 4
  · intro k p s chRest rCh h data e chn v hk hflag hpush hch hfam hdec hroom
    have hs : (Public.unsubscribe env k
        (Public.subscribe env k p w req reqs (some s :: chRest)).1 w2 req rCh).1.sink k =
        some s := by
      rw [Public_unsubscribe_sink, if_pos rfl, clearSink_eq, if_neg hflag,
        Public_subscribe_sink, if_pos rfl]
      rfl
    rw [Public_Process_eq, if_pos hpush, hch]
    simp only [Public_selected_of_family chn k hfam hk, hs]
    rw [deliver_some unmarshalPub _ h k s data v hdec, sendReturnTrue_room _ h k s v hroom]
  · intro k p s chRest rCh h data e v hflag hpush hch hdec hroom
    have hs : (Private.unsubscribe env k
        (Private.subscribe env k p w req (some s :: chRest)).1 w2 req rCh).1.sink k =
        some s := by
      rw [Private_unsubscribe_sink, if_pos rfl, clearSink_eq, if_neg hflag,
        Private_subscribe_sink, if_pos rfl]
      rfl
    rw [Private_Process_eq, if_pos hpush, hch]
    simp only [Private_family_name, hs]
    rw [deliver_some unmarshalPriv _ h k s data v hdec, sendReturnTrue_room _ h k s v hroom]
  · have hnone : (Public.unsubscribe env k (Public.subscribe env k p w req reqs ch).1 w2 req
        (true :: rest)).1.sink k = none := by
      rw [Public_unsubscribe_sink, if_pos rfl]
      rfl
    refine ⟨hnone, fun hk h data e chn hch hfam => ?_⟩
    rw [Public_Process_eq]
    by_cases hpush : e.isPush = true
    · rw [if_pos hpush, hch]
      simp only [Public_selected_of_family chn k hfam hk, hnone]
      rfl
    · rw [if_neg hpush]
  · rw [Public_unsubscribe_sink, if_pos rfl, clearSink_eq, if_neg hflag]
  · have hnone : (Private.unsubscribe env k (Private.subscribe env k p w req ch).1 w2 req
        (true :: rest)).1.sink k = none := by
      rw [Private_unsubscribe_sink, if_pos rfl]
      rfl
    refine ⟨hnone, fun h data e hch => ?_⟩
    rw [Private_Process_eq]
    by_cases hpush : e.isPush = true
    · rw [if_pos hpush, hch]
      simp only [Private_family_name, hnone]
      rfl
    · rw [if_neg hpush]
  · rw [Private_unsubscribe_sink, if_pos rfl, clearSink_eq, if_neg hflag]

/-- Witness of `subscribe_unsubscribe_clear`: after `Tickers(req, ch)` and
`UTickers(req, true)` a tickers frame is dropped. -/
theorem subscribe_unsubscribe_clear_witness :
    Public.Process (fun _ d => some d)
        (Public.unsubscribe quietEnv PubKind.Tickers
          (Public.subscribe quietEnv PubKind.Tickers NewPublic () [] [] [some 1]).1 () []
          [true]).1
        (emptyHeap PubKind Bytes 1) [1] (pushFrame "tickers") =
      Outcome.returned false
        (Public.unsubscribe quietEnv PubKind.Tickers
          (Public.subscribe quietEnv PubKind.Tickers NewPublic () [] [] [some 1]).1 () []
          [true]).1
        (emptyHeap PubKind Bytes 1) :=
  ((subscribe_unsubscribe_clear quietEnv (fun _ d => some d)
      (fun (_ : PrivKind) (d : Bytes) => some d) () () [] [] [some 1]).1
    PubKind.Tickers NewPublic []).2 (by decide) (emptyHeap PubKind Bytes 1) [1]
    (pushFrame "tickers") "tickers" (by decide) (by decide)

/-! ## Subscribing again -/

/-- Replacement of the sink by a subscribe call, every family: after the call the
sink of the family is the first sink passed, or the sink it had when none is
passed, and no other sink field changes; so two calls with `s1` then `s2` leave
`s2`. For every public family but funding-rate, and every private family, a later
frame on a channel of the family whose payload decodes puts exactly the decoded
value on `s2` when `s2` has room. -/
theorem subscribe_replaces_sink {W Req Err ValPub ValPriv : Type} (env : WsEnv W Req Err)
    (unmarshalPub : PubKind → Bytes → Option ValPub)
    (unmarshalPriv : PrivKind → Bytes → Option ValPriv)
    (w w2 : W) (req : Req) (reqs : List Req) :
    (∀ (k j : PubKind) (p : Public) (ch : List (Option Sink)),
      (Public.subscribe env k p w req reqs ch).1.sink j =
        if j = k then (match ch with | [] => p.sink k | c :: _ => c) else p.sink j) ∧
    (∀ (k j : PrivKind) (p : Private) (ch : List (Option Sink)),
      (Private.subscribe env k p w req ch).1.sink j =
        if j = k then (match ch with | [] => p.sink k | c :: _ => c) else p.sink j) ∧
    (∀ (k : PubKind) (p : Public) (s1 s2 : Sink) (h : Heap PubKind ValPub) (data : Bytes)
        (e : Basic) (chn : String) (v : ValPub),
      k ≠ PubKind.FundingRate → e.isPush = true → e.channel = some chn →
      Public.family chn = some k → unmarshalPub k data = some v → (h k s2).full = false →
      Public.Process unmarshalPub
          (Public.subscribe env k (Public.subscribe env k p w req reqs [some s1]).1 w2 req reqs
            [some s2]).1 h data e =
        Outcome.returned true
          (Public.subscribe env k (Public.subscribe env k p w req reqs [some s1]).1 w2 req reqs
            [some s2]).1 (h.push k s2 v)) ∧
    (∀ (k : PrivKind) (p : Private) (s1 s2 : Sink) (h : Heap PrivKind ValPriv) (data : Bytes)
        (e : Basic) (v : ValPriv),
      e.isPush = true → e.channel = some k.name →
      unmarshalPriv k data = some v → (h k s2).full = false →
      Private.Process unmarshalPriv
          (Private.subscribe env k (Private.subscribe env k p w req [some s1]).1 w2 req
            [some s2]).1 h data e =
        Outcome.returned true
          (Private.subscribe env k (Private.subscribe env k p w req [some s1]).1 w2 req
            [some s2]).1 (h.push k s2 v)) := by
  refine ⟨fun k j p ch => ?_, fun k j p ch => ?_, ?_, ?_⟩
  · rw [Public_subscribe_sink]; cases ch <;> rfl
  · rw [Private_subscribe_sink]; cases ch <;> rfl
  · intro k p s1 s2 h data e chn v hk hpush hch hfam hdec hroom
    have hs : (Public.subscribe env k (Public.subscribe env k p w req reqs [some s1]).1 w2 req
        reqs [some s2]).1.sink k = some s2 := by
      rw [Public_subscribe_sink, if_pos rfl]; rfl
    rw [Public_Process_eq, if_pos hpush, hch]
    simp only [Public_selected_of_family chn k hfam hk, hs]
    rw [deliver_some unmarshalPub _ h k s2 data v hdec, sendReturnTrue_room _ h k s2 v hroom]
  · intro k p s1 s2 h data e v hpush hch hdec hroom
    have hs : (Private.subscribe env k (Private.subscribe env k p w req [some s1]).1 w2 req
        [some s2]).1.sink k = some s2 := by
      rw [Private_subscribe_sink, if_pos rfl]; rfl
    rw [Private_Process_eq, if_pos hpush, hch]
    simp only [Private_family_name, hs]
    rw [deliver_some unmarshalPriv _ h k s2 data v hdec, sendReturnTrue_room _ h k s2 v hroom]

/-- Claim C7, at the funding-rate family: after `FundingRate(req, s1)` and
`FundingRate(req, s2)` on a fresh `Public` the funding-rate sink is `s2`, yet a
funding-rate push frame returns `false` and puts nothing on `s2` (nor on any other
channel), whatever the payload: the case `"funding-rate"` of `Public.Process` reads
the opt-summary sink. -/
theorem Public_FundingRate_twice_not_delivered {W Req Err Val : Type} (env : WsEnv W Req Err)
    (w w2 : W) (req : Req) (unmarshal : PubKind → Bytes → Option Val) (h : Heap PubKind Val)
    (data : Bytes) (s1 s2 : Sink) :
    ((NewPublic.FundingRate env w req [some s1]).1.FundingRate env w2 req [some s2]).1.sink
        PubKind.FundingRate = some s2 ∧
    Public.Process unmarshal
        ((NewPublic.FundingRate env w req [some s1]).1.FundingRate env w2 req [some s2]).1
        h data (pushFrame "funding-rate") =
      Outcome.returned false
        ((NewPublic.FundingRate env w req [some s1]).1.FundingRate env w2 req [some s2]).1
        h := by
  refine ⟨rfl, ?_⟩
  rw [Public_Process_eq]
  rfl

/-! ## The clear flag of the unsubscribe methods -/

/-- Claim C8: after an unsubscribe method the sink of its family is `nil` when the
clear flag is passed and `true`, and otherwise the sink it was before; the sink of
every other family is the sink it was before. -/
theorem unsubscribe_clear_flag {W Req Err : Type} (env : WsEnv W Req Err) (w : W) (req : Req)
    (rCh : List Bool) :
    (∀ (k j : PubKind) (p : Public),
      (Public.unsubscribe env k p w req rCh).1.sink j =
        if j = k then (if rCh.head? = some true then none else p.sink k) else p.sink j) ∧
    (∀ (k j : PrivKind) (p : Private),
      (Private.unsubscribe env k p w req rCh).1.sink j =
        if j = k then (if rCh.head? = some true then none else p.sink k) else p.sink j) := by
  constructor
  · intro k j p
    rw [Public_unsubscribe_sink, clearSink_eq]
  · intro k j p
    rw [Private_unsubscribe_sink, clearSink_eq]

/-! ## A sink that is full -/

/-- Claim C9 as stated fails: with the tickers sink (and the account sink) holding
one value in a buffer of one, a routed frame does not make `Process` return; it is
parked in the send, and the frame is not dropped. -/
theorem Process_full_sink_blocks :
    Public.Process (fun _ d => some d) Public.allInstalled
        (fun _ _ => { cap := 1, queue := [[0]] }) [1] (pushFrame "tickers") =
      Outcome.blocked ∧
    Private.Process (fun _ d => some d) Private.allInstalled
        (fun _ _ => { cap := 1, queue := [[0]] }) [1] (pushFrame "account") =
      Outcome.blocked := by
  constructor
  · rw [Public_Process_eq]; rfl
  · rw [Private_Process_eq]; rfl

/-- Claim C9, amended: `Process` sends with the plain blocking send `ch <- v`. For a
push frame routed to an installed sink with a payload that decodes, `Process` is
parked in the send while the sink is full (it neither returns nor drops the frame)
and returns `true` with the decoded value on the sink when the sink has room. -/
theorem Process_send_waits {ValPub ValPriv : Type}
    (unmarshalPub : PubKind → Bytes → Option ValPub)
    (unmarshalPriv : PrivKind → Bytes → Option ValPriv) :
    (∀ (p : Public) (h : Heap PubKind ValPub) (data : Bytes) (e : Basic) (ch : String)
        (k : PubKind) (c : Sink) (v : ValPub),
      e.isPush = true → e.channel = some ch → Public.selected ch = some k →
      p.sink k = some c → unmarshalPub k data = some v →
        ((h k c).full = true → Public.Process unmarshalPub p h data e = Outcome.blocked) ∧
        ((h k c).full = false →
          Public.Process unmarshalPub p h data e = Outcome.returned true p (h.push k c v))) ∧
    (∀ (p : Private) (h : Heap PrivKind ValPriv) (data : Bytes) (e : Basic) (k : PrivKind)
        (c : Sink) (v : ValPriv),
      e.isPush = true → e.channel = some k.name →
      p.sink k = some c → unmarshalPriv k data = some v →
        ((h k c).full = true → Private.Process unmarshalPriv p h data e = Outcome.blocked) ∧
        ((h k c).full = false →
          Private.Process unmarshalPriv p h data e =
            Outcome.returned true p (h.push k c v))) := by
  constructor
  · intro p h data e ch k c v hpush hch hsel hsink hdec
    have hproc : Public.Process unmarshalPub p h data e = sendReturnTrue p h k c v := by
      rw [Public_Process_eq, if_pos hpush, hch]
      simp only [hsel, hsink]
      exact deliver_some unmarshalPub p h k c data v hdec
    exact ⟨fun hf => by rw [hproc, sendReturnTrue_full p h k c v hf],
      fun hf => by rw [hproc, sendReturnTrue_room p h k c v hf]⟩
  · intro p h data e k c v hpush hch hsink hdec
    have hproc : Private.Process unmarshalPriv p h data e = sendReturnTrue p h k c v := by
      rw [Private_Process_eq, if_pos hpush, hch]
      simp only [Private_family_name, hsink]
      exact deliver_some unmarshalPriv p h k c data v hdec
    exact ⟨fun hf => by rw [hproc, sendReturnTrue_full p h k c v hf],
      fun hf => by rw [hproc, sendReturnTrue_room p h k c v hf]⟩

/-- Witness of `Process_send_waits`: an orders frame with the orders sink full. -/
theorem Process_send_waits_witness :
    Private.Process (fun _ d => some d) Private.allInstalled
        (fun _ _ => { cap := 1, queue := [[0]] }) [1] (pushFrame "orders") =
      Outcome.blocked :=
  ((Process_send_waits (fun (_ : PubKind) (d : Bytes) => some d) (fun _ d => some d)).2
    Private.allInstalled (fun _ _ => { cap := 1, queue := [[0]] }) [1] (pushFrame "orders")
    PrivKind.Order 3 [1] (by decide) (by decide) rfl rfl).1 (by decide)

/-! ## The signature -/

/-- Claim C10: `sign` returns a pair `(ts, sig)` in which `ts` is the formatted
timestamp and `sig` is the standard Base64 encoding of the HMAC-SHA256, keyed by the
secret key of the client, of the bytes of `ts + method + path + body` for that same
`ts`. -/
theorem ClientRest_sign_signature (std : GoStd) (c : ClientRest) (now : Int)
    (method path body : String) :
    ∃ ts sig : String,
      c.sign std now method path body = (ts, sig) ∧
      ts = std.timeFormat "2006-01-02T15:04:05.999Z07:00" (now + c.serverTimeDiff) ∧
      sig = std.base64StdEncode
        (std.hmacSHA256 c.secretKey (stringBytes (ts ++ method ++ path ++ body))) :=
  ⟨_, _, rfl, rfl, rfl⟩

/-! ## The requests `Do` builds -/

section DoLemmas

variable {Err : Type}

theorem Do_GET_nil (std : GoStd) (http : HttpEnv Err) (c : ClientRest) (now : Int)
    (path : String) (isPrivate : Bool)
    (hnew : http.newRequestError "GET" (c.baseURL ++ path) = none) :
    c.Do std http now "GET" path isPrivate [] =
      DoResult.sent
        (c.attach std now "GET" path "" isPrivate
          { method := "GET", url := c.baseURL ++ path,
            rawQuery := http.rawQueryOf (c.baseURL ++ path), body := none, header := [] })
        (http.clientDo
          (c.attach std now "GET" path "" isPrivate
            { method := "GET", url := c.baseURL ++ path,
              rawQuery := http.rawQueryOf (c.baseURL ++ path), body := none,
              header := [] })) := by
  unfold ClientRest.Do ClientRest.attach ClientRest.authHeader
  simp only [if_true, hnew]
  cases isPrivate <;> by_cases hd : c.destination = Destination.DemoServer <;> simp [hd]

theorem foldl_Add_eq (m : Params) (q : Values) :
    m.foldl (fun q kv => q.Add kv.1 (stripQuotes kv.2)) q = q ++ queryPairs m := by
  induction m generalizing q with
  | nil => simp [queryPairs]
  | cons kv t ih =>
    rw [List.foldl_cons, ih]
    simp [Values.Add, queryPairs]

theorem Do_GET_cons (std : GoStd) (http : HttpEnv Err) (c : ClientRest) (now : Int)
    (path : String) (isPrivate : Bool) (m : Params) (rest : List Params)
    (hnew : http.newRequestError "GET" (c.baseURL ++ path) = none) :
    c.Do std http now "GET" path isPrivate (m :: rest) =
      DoResult.sent
        (c.attach std now "GET"
          (if m.length > 0 then
            path ++ "?" ++ Values.Encode http.queryEscape
              (http.parseQuery (http.rawQueryOf (c.baseURL ++ path)) ++ queryPairs m)
           else path) "" isPrivate
          { method := "GET", url := c.baseURL ++ path,
            rawQuery := Values.Encode http.queryEscape
              (http.parseQuery (http.rawQueryOf (c.baseURL ++ path)) ++ queryPairs m),
            body := none, header := [] })
        (http.clientDo
          (c.attach std now "GET"
            (if m.length > 0 then
              path ++ "?" ++ Values.Encode http.queryEscape
                (http.parseQuery (http.rawQueryOf (c.baseURL ++ path)) ++ queryPairs m)
             else path) "" isPrivate
            { method := "GET", url := c.baseURL ++ path,
              rawQuery := Values.Encode http.queryEscape
                (http.parseQuery (http.rawQueryOf (c.baseURL ++ path)) ++ queryPairs m),
              body := none, header := [] })) := by
  unfold ClientRest.Do ClientRest.attach ClientRest.authHeader
  simp only [if_true, hnew, foldl_Add_eq]
  cases isPrivate <;> by_cases hd : c.destination = Destination.DemoServer <;> simp [hd]

theorem Do_nonGET_nil (std : GoStd) (http : HttpEnv Err) (c : ClientRest) (now : Int)
    (method path : String) (isPrivate : Bool) (hm : method ≠ "GET") :
    c.Do std http now method path isPrivate [] =
      DoResult.panicked "index out of range [0] with length 0" := by
  unfold ClientRest.Do
  simp only [if_neg hm]

theorem Do_nonGET_cons (std : GoStd) (http : HttpEnv Err) (c : ClientRest) (now : Int)
    (method path : String) (isPrivate : Bool) (m : Params) (rest : List Params) (j : String)
    (hm : method ≠ "GET") (hj : http.jsonMarshal m = Except.ok j)
    (hnew : http.newRequestError method (c.baseURL ++ path) = none) :
    c.Do std http now method path isPrivate (m :: rest) =
      DoResult.sent
        (c.attach std now method path (if j = "\x7b\x7d" then "" else j) isPrivate
          { method := method, url := c.baseURL ++ path,
            rawQuery := http.rawQueryOf (c.baseURL ++ path), body := some j,
            header := [("Content-Type", "application/json")] })
        (http.clientDo
          (c.attach std now method path (if j = "\x7b\x7d" then "" else j) isPrivate
            { method := method, url := c.baseURL ++ path,
              rawQuery := http.rawQueryOf (c.baseURL ++ path), body := some j,
              header := [("Content-Type", "application/json")] })) := by
  unfold ClientRest.Do ClientRest.attach ClientRest.authHeader
  simp only [if_neg hm, hj, hnew]
  cases isPrivate <;> by_cases hd : c.destination = Destination.DemoServer <;> simp [hd]

/-- Every request `Do` sends is one of three: a GET without parameter map, a GET
with a parameter map, or a request with a JSON body; in each case it went through
the tail of `Do`, and the response is the one of the HTTP client. -/
theorem Do_sent_inv (std : GoStd) (http : HttpEnv Err) (c : ClientRest) (now : Int)
    (method path : String) (isPrivate : Bool) (params : List Params) (r : Request)
    (res : Except Err Response)
    (hsent : c.Do std http now method path isPrivate params = DoResult.sent r res) :
    res = http.clientDo r ∧
    ∃ (r0 : Request) (signedPath signedBody : String),
      r = c.attach std now method signedPath signedBody isPrivate r0 ∧
      r0.method = method ∧ r0.url = c.baseURL ++ path ∧
      ((method = "GET" ∧ r0.body = none ∧ r0.header = [] ∧ signedBody = "" ∧
          ((params = [] ∧ signedPath = path ∧
              r0.rawQuery = http.rawQueryOf (c.baseURL ++ path)) ∨
            (∃ m rest, params = m :: rest ∧
              r0.rawQuery = Values.Encode http.queryEscape
                (http.parseQuery (http.rawQueryOf (c.baseURL ++ path)) ++ queryPairs m) ∧
              signedPath = if m.length > 0 then path ++ "?" ++ r0.rawQuery else path))) ∨
        (method ≠ "GET" ∧ ∃ m rest j, params = m :: rest ∧
          http.jsonMarshal m = Except.ok j ∧ r0.body = some j ∧
          r0.header = [("Content-Type", "application/json")] ∧
          r0.rawQuery = http.rawQueryOf (c.baseURL ++ path) ∧ signedPath = path ∧
          signedBody = if j = "\x7b\x7d" then "" else j)) := by
  by_cases hm : method = "GET"
  · subst hm
    cases hnew : http.newRequestError "GET" (c.baseURL ++ path) with
    | some err =>
      unfold ClientRest.Do at hsent
      simp [hnew] at hsent
    | none =>
      cases params with
      | nil =>
        rw [Do_GET_nil std http c now path isPrivate hnew] at hsent
        injection hsent with h1 h2
        exact ⟨by rw [← h2, h1], _, path, "", h1.symm, rfl, rfl,
          Or.inl ⟨rfl, rfl, rfl, rfl, Or.inl ⟨rfl, rfl, rfl⟩⟩⟩
      | cons m rest =>
        rw [Do_GET_cons std http c now path isPrivate m rest hnew] at hsent
        injection hsent with h1 h2
        exact ⟨by rw [← h2, h1], _, _, "", h1.symm, rfl, rfl,
          Or.inl ⟨rfl, rfl, rfl, rfl, Or.inr ⟨m, rest, rfl, rfl, rfl⟩⟩⟩
  · cases params with
    | nil =>
      rw [Do_nonGET_nil std http c now method path isPrivate hm] at hsent
      cases hsent
    | cons m rest =>
      cases hj : http.jsonMarshal m with
      | error err =>
        unfold ClientRest.Do at hsent
        simp [hm, hj] at hsent
      | ok j =>
        cases hnew : http.newRequestError method (c.baseURL ++ path) with
        | some err =>
          unfold ClientRest.Do at hsent
          simp [hm, hj, hnew] at hsent
        | none =>
          rw [Do_nonGET_cons std http c now method path isPrivate m rest j hm hj hnew] at hsent
          injection hsent with h1 h2
          exact ⟨by rw [← h2, h1], _, path, _, h1.symm, rfl, rfl,
            Or.inr ⟨hm, m, rest, j, rfl, hj, rfl, rfl, rfl, rfl, rfl⟩⟩

end DoLemmas

/-! ## Headers of the request -/

/-- Claim C13: on the request a call of `Do` sends, the headers `OK-ACCESS-KEY`,
`OK-ACCESS-PASSPHRASE`, `OK-ACCESS-SIGN` and `OK-ACCESS-TIMESTAMP` are present if
and only if the call is private, and then carry the API key of the client, its
passphrase and the two components of one pair returned by `sign`; the header
`x-simulated-trading` is present if and only if the destination of the client is
the demo server, with value `1`, whatever the private flag. -/
theorem Do_headers {Err : Type} (std : GoStd) (http : HttpEnv Err) (c : ClientRest) (now : Int)
    (method path : String) (isPrivate : Bool) (params : List Params) (r : Request)
    (res : Except Err Response)
    (hsent : c.Do std http now method path isPrivate params = DoResult.sent r res) :
    (∀ v, ("OK-ACCESS-KEY", v) ∈ r.header ↔ (isPrivate = true ∧ v = c.apiKey)) ∧
    (∀ v, ("OK-ACCESS-PASSPHRASE", v) ∈ r.header ↔ (isPrivate = true ∧ v = c.passphrase)) ∧
    (∃ signedPath signedBody : String,
      (∀ v, ("OK-ACCESS-SIGN", v) ∈ r.header ↔
        (isPrivate = true ∧ v = (c.sign std now method signedPath signedBody).2)) ∧
      (∀ v, ("OK-ACCESS-TIMESTAMP", v) ∈ r.header ↔
        (isPrivate = true ∧ v = (c.sign std now method signedPath signedBody).1))) ∧
    (∀ v, ("x-simulated-trading", v) ∈ r.header ↔
      (c.destination = Destination.DemoServer ∧ v = "1")) := by
  obtain ⟨_, r0, signedPath, signedBody, hr, _, _, hcase⟩ :=
    Do_sent_inv std http c now method path isPrivate params r res hsent
  have hbase : r0.header = [] ∨ r0.header = [("Content-Type", "application/json")] := by
    rcases hcase with ⟨_, _, h, _⟩ | ⟨_, _, _, _, _, _, _, h, _⟩
    · exact Or.inl h
    · exact Or.inr h
  subst hr
  refine ⟨?_, ?_, ⟨signedPath, signedBody, ?_, ?_⟩, ?_⟩ <;> intro v <;>
    rcases hbase with hb | hb <;> cases isPrivate <;>
    by_cases hd : c.destination = Destination.DemoServer <;>
    simp [ClientRest.attach, ClientRest.authHeader, hb, hd, eq_comm]

/-- Witness of `Do_headers`: a private GET on the example client carries the API
key. -/
theorem Do_headers_witness :
    ("OK-ACCESS-KEY", "key") ∈
      (exampleClient.attach exampleStd 0 "GET" "/api/v5/account/balance" "" true
        { method := "GET", url := "https://www.okex.com/api/v5/account/balance",
          rawQuery := "", body := none, header := [] }).header :=
  ((Do_headers exampleStd (exampleHttp []) exampleClient 0 "GET" "/api/v5/account/balance"
      true [] _ _
      (Do_GET_nil exampleStd (exampleHttp []) exampleClient 0 "/api/v5/account/balance" true
        rfl)).1 "key").2 ⟨rfl, rfl⟩

/-! ## Query string of a GET -/

/-- Claim C16: a GET call of `Do` with a parameter map `m`, on a URL that carries
no query of its own, sends a request without body whose query string is the
encoding of exactly one pair per entry of `m`: the pairs are the entries of `m`
with the key as it is and the value without its double-quote characters, in the
order of their keys, each rendered `key=value` through `url.QueryEscape` and joined
with `&`. -/
theorem Do_GET_query {Err : Type} (std : GoStd) (http : HttpEnv Err) (c : ClientRest)
    (now : Int) (path : String) (isPrivate : Bool) (m : Params) (rest : List Params)
    (hnew : http.newRequestError "GET" (c.baseURL ++ path) = none)
    (hquery : http.parseQuery (http.rawQueryOf (c.baseURL ++ path)) = []) :
    ∃ (r : Request) (pairs : Values),
      c.Do std http now "GET" path isPrivate (m :: rest) = DoResult.sent r (http.clientDo r) ∧
      r.body = none ∧
      pairs.Perm (m.map (fun kv => (kv.1, stripQuotes kv.2))) ∧
      pairs.length = m.length ∧
      (∀ kv ∈ m, (stripQuotes kv.2).data = kv.2.data.filter (fun ch => ch != Char.ofNat 34) ∧
        Char.ofNat 34 ∉ (stripQuotes kv.2).data) ∧
      r.rawQuery = "&".intercalate
        (pairs.map (fun kv => http.queryEscape kv.1 ++ "=" ++ http.queryEscape kv.2)) := by
  refine ⟨_, List.insertionSort (fun a b : String × String => stringLE a.1 b.1 = true)
    (queryPairs m), Do_GET_cons std http c now path isPrivate m rest hnew, rfl, ?_, ?_, ?_, ?_⟩
  · exact List.perm_insertionSort _ _
  · rw [(List.perm_insertionSort _ _).length_eq]
    simp [queryPairs]
  · intro kv _
    refine ⟨rfl, ?_⟩
    simp [stripQuotes, List.mem_filter]
  · simp [ClientRest.attach, hquery, Values.Encode]

/-- Witness of `Do_GET_query`: the map with `instId` quoted and `ccy` plain gives
the query `ccy=BTC&instId=BTC-USDT`. -/
theorem Do_GET_query_witness :
    ∃ (r : Request) (pairs : Values),
      exampleClient.Do exampleStd (exampleHttp []) 0 "GET" "/api/v5/market/ticker" false
          [[("instId", "\"BTC-USDT\""), ("ccy", "BTC")]] =
        DoResult.sent r ((exampleHttp []).clientDo r) ∧
      r.body = none ∧
      pairs.Perm ([("instId", "\"BTC-USDT\""), ("ccy", "BTC")].map
        (fun kv => (kv.1, stripQuotes kv.2))) ∧
      pairs.length = [("instId", "\"BTC-USDT\""), ("ccy", "BTC")].length ∧
      (∀ kv ∈ [("instId", "\"BTC-USDT\""), ("ccy", "BTC")],
        (stripQuotes kv.2).data = kv.2.data.filter (fun ch => ch != Char.ofNat 34) ∧
        Char.ofNat 34 ∉ (stripQuotes kv.2).data) ∧
      r.rawQuery = "&".intercalate
        (pairs.map (fun kv => (exampleHttp []).queryEscape kv.1 ++ "=" ++
          (exampleHttp []).queryEscape kv.2)) :=
  Do_GET_query exampleStd (exampleHttp []) exampleClient 0 "/api/v5/market/ticker" false
    [("instId", "\"BTC-USDT\""), ("ccy", "BTC")] [] rfl rfl

/-! ## Body of a request that is not a GET -/

/-- Claim C17: a call of `Do` with a method other than GET sends as body the JSON
serialisation `j` of the parameter map; the body that enters the signature is `j`
too, except that for `j` the empty object the signed body is the empty string,
while the empty object is still the body sent. -/
theorem Do_nonGET_body {Err : Type} (std : GoStd) (http : HttpEnv Err) (c : ClientRest)
    (now : Int) (method path : String) (isPrivate : Bool) (m : Params) (rest : List Params)
    (j : String) (hm : method ≠ "GET") (hj : http.jsonMarshal m = Except.ok j)
    (hnew : http.newRequestError method (c.baseURL ++ path) = none) :
    ∃ (r : Request) (signedBody : String),
      c.Do std http now method path isPrivate (m :: rest) =
        DoResult.sent r (http.clientDo r) ∧
      r.body = some j ∧
      (j ≠ "\x7b\x7d" → signedBody = j) ∧
      (j = "\x7b\x7d" → signedBody = "" ∧ r.body = some "\x7b\x7d") ∧
      (isPrivate = true →
        ("OK-ACCESS-TIMESTAMP", (c.sign std now method path signedBody).1) ∈ r.header ∧
        ("OK-ACCESS-SIGN",
          signatureOf std c.secretKey (c.sign std now method path signedBody).1 method path
            signedBody) ∈ r.header) := by
  refine ⟨_, if j = "\x7b\x7d" then "" else j,
    Do_nonGET_cons std http c now method path isPrivate m rest j hm hj hnew, rfl, ?_, ?_, ?_⟩
  · intro hne
    rw [if_neg hne]
  · intro he
    rw [if_pos he]
    exact ⟨rfl, by subst he; rfl⟩
  · intro hp
    subst hp
    simp [ClientRest.attach, ClientRest.authHeader, signatureOf, ClientRest.sign]

/-- Witness of `Do_nonGET_body`: a POST with the empty map sends the empty object
and signs the empty body. -/
theorem Do_nonGET_body_witness :
    ∃ (r : Request) (signedBody : String),
      exampleClient.Do exampleStd (exampleHttp []) 0 "POST" "/api/v5/trade/order" true [[]] =
        DoResult.sent r ((exampleHttp []).clientDo r) ∧
      r.body = some "\x7b\x7d" ∧
      ("\x7b\x7d" ≠ "\x7b\x7d" → signedBody = "\x7b\x7d") ∧
      ("\x7b\x7d" = "\x7b\x7d" → signedBody = "" ∧ r.body = some "\x7b\x7d") ∧
      (true = true →
        ("OK-ACCESS-TIMESTAMP",
          (exampleClient.sign exampleStd 0 "POST" "/api/v5/trade/order" signedBody).1) ∈
            r.header ∧
        ("OK-ACCESS-SIGN",
          signatureOf exampleStd exampleClient.secretKey
            (exampleClient.sign exampleStd 0 "POST" "/api/v5/trade/order" signedBody).1 "POST"
            "/api/v5/trade/order" signedBody) ∈ r.header) :=
  Do_nonGET_body exampleStd (exampleHttp []) exampleClient 0 "POST" "/api/v5/trade/order" true
    [] [] "\x7b\x7d" (by decide) rfl rfl

/-! ## What a private GET signs -/

/-- Claim C18: a private GET call of `Do` signs the bytes of `ts + "GET" + P` (the
signed body is empty), where `P` is the path alone when no parameter map is passed
or the map is empty, and otherwise the path, `?` and the very query string on the
URL of the request; the header `OK-ACCESS-TIMESTAMP` carries that same `ts`. -/
theorem Do_private_GET_signed {Err : Type} (std : GoStd) (http : HttpEnv Err) (c : ClientRest)
    (now : Int) (path : String) (params : List Params)
    (hnew : http.newRequestError "GET" (c.baseURL ++ path) = none) :
    ∃ (r : Request) (P ts : String),
      c.Do std http now "GET" path true params = DoResult.sent r (http.clientDo r) ∧
      (params = [] → P = path) ∧
      (∀ rest, params = [] :: rest → P = path) ∧
      (∀ m rest, params = m :: rest → m ≠ [] → P = path ++ "?" ++ r.rawQuery) ∧
      ts = (c.sign std now "GET" P "").1 ∧
      ("OK-ACCESS-TIMESTAMP", ts) ∈ r.header ∧
      ("OK-ACCESS-SIGN",
        std.base64StdEncode
          (std.hmacSHA256 c.secretKey (stringBytes (ts ++ "GET" ++ P)))) ∈ r.header := by
  cases params with
  | nil =>
    refine ⟨_, path, _, Do_GET_nil std http c now path true hnew, ?_, ?_, ?_, rfl, ?_, ?_⟩
    · intro _
      rfl
    · intro rest h
      cases h
    · intro m rest h
      cases h
    · simp [ClientRest.attach, ClientRest.authHeader, ClientRest.sign]
    · simp [ClientRest.attach, ClientRest.authHeader, ClientRest.sign]
  | cons m rest =>
    refine ⟨_,
      (if m.length > 0 then
        path ++ "?" ++ Values.Encode http.queryEscape
          (http.parseQuery (http.rawQueryOf (c.baseURL ++ path)) ++ queryPairs m)
       else path), _,
      Do_GET_cons std http c now path true m rest hnew, ?_, ?_, ?_, rfl, ?_, ?_⟩
    · intro h
      cases h
    · intro rest2 h
      injection h with h1 _
      subst h1
      rfl
    · intro m2 rest2 h hne
      injection h with h1 _
      subst h1
      have hlen : m.length > 0 := List.length_pos.2 hne
      rw [if_pos hlen]
      rfl
    · simp [ClientRest.attach, ClientRest.authHeader, ClientRest.sign]
    · simp [ClientRest.attach, ClientRest.authHeader, ClientRest.sign]

/-- Witness of `Do_private_GET_signed`: a private GET without parameter map on the
example client. -/
theorem Do_private_GET_signed_witness :
    ∃ (r : Request) (P ts : String),
      exampleClient.Do exampleStd (exampleHttp []) 0 "GET" "/api/v5/account/balance" true [] =
        DoResult.sent r ((exampleHttp []).clientDo r) ∧
      (([] : List Params) = [] → P = "/api/v5/account/balance") ∧
      (∀ rest, ([] : List Params) = [] :: rest → P = "/api/v5/account/balance") ∧
      (∀ m rest, ([] : List Params) = m :: rest → m ≠ [] →
        P = "/api/v5/account/balance" ++ "?" ++ r.rawQuery) ∧
      ts = (exampleClient.sign exampleStd 0 "GET" P "").1 ∧
      ("OK-ACCESS-TIMESTAMP", ts) ∈ r.header ∧
      ("OK-ACCESS-SIGN",
        exampleStd.base64StdEncode
          (exampleStd.hmacSHA256 exampleClient.secretKey
            (stringBytes (ts ++ "GET" ++ P)))) ∈ r.header :=
  Do_private_GET_signed exampleStd (exampleHttp []) exampleClient 0 "/api/v5/account/balance"
    [] rfl

/-! ## The read of `params[0]` -/

/-- Claim C19: a GET call of `Do` never panics, whatever the number of parameter
maps, none included; with another method the read of `params[0]` is in range when
at least one map is passed, and then the call does not panic, and a call without
any map panics with an index out of range and sends nothing. -/
theorem Do_params_index {Err : Type} (std : GoStd) (http : HttpEnv Err) (c : ClientRest)
    (now : Int) (method path : String) (isPrivate : Bool) (hm : method ≠ "GET") :
    (∀ (params : List Params) (msg : String),
      c.Do std http now "GET" path isPrivate params ≠ DoResult.panicked msg) ∧
    (∀ (m : Params) (rest : List Params) (msg : String),
      c.Do std http now method path isPrivate (m :: rest) ≠ DoResult.panicked msg) ∧
    c.Do std http now method path isPrivate [] =
      DoResult.panicked "index out of range [0] with length 0" ∧
    (∀ (r : Request) (res : Except Err Response),
      c.Do std http now method path isPrivate [] ≠ DoResult.sent r res) := by
  refine ⟨?_, ?_, Do_nonGET_nil std http c now method path isPrivate hm, ?_⟩
  · intro params msg
    cases hnew : http.newRequestError "GET" (c.baseURL ++ path) with
    | some err =>
      unfold ClientRest.Do
      simp [hnew]
    | none =>
      cases params with
      | nil => rw [Do_GET_nil std http c now path isPrivate hnew]; simp
      | cons m rest => rw [Do_GET_cons std http c now path isPrivate m rest hnew]; simp
  · intro m rest msg
    cases hj : http.jsonMarshal m with
    | error err =>
      unfold ClientRest.Do
      simp [hm, hj]
    | ok j =>
      cases hnew : http.newRequestError method (c.baseURL ++ path) with
      | some err =>
        unfold ClientRest.Do
        simp [hm, hj, hnew]
      | none =>
        rw [Do_nonGET_cons std http c now method path isPrivate m rest j hm hj hnew]
        simp
  · intro r res
    rw [Do_nonGET_nil std http c now method path isPrivate hm]
    simp

/-- Witness of `Do_params_index`: a POST without parameter map panics. -/
theorem Do_params_index_witness :
    exampleClient.Do exampleStd (exampleHttp []) 0 "POST" "/api/v5/trade/order" true [] =
      DoResult.panicked "index out of range [0] with length 0" :=
  (Do_params_index exampleStd (exampleHttp []) exampleClient 0 "POST" "/api/v5/trade/order"
    true (by decide)).2.2.1

/-! ## Decoding of the response envelope -/

/-- Claim C14: `decode` returns an error if and only if the JSON decoder fails or
the decoded value exposes `BasicI` with a code other than 0; a failure of the
decoder is returned as it is, a code other than 0 gives the error text
`code: <code>, msg: <msg>` with the code and message of the venue, and a code of 0
gives no error. -/
theorem decode_error_iff {V Err : Type} (jsonDecode : Bytes → V → V × Option Err)
    (assertBasicI : V → Option responses.BasicI) (reader : Bytes) (v : V) :
    ((ClientRest.decode jsonDecode assertBasicI reader v).2 ≠ none ↔
      ((jsonDecode reader v).2 ≠ none ∨
        ∃ b, assertBasicI (jsonDecode reader v).1 = some b ∧ b.GetCode ≠ 0)) ∧
    (∀ e, (jsonDecode reader v).2 = some e →
      (ClientRest.decode jsonDecode assertBasicI reader v).2 = some (RestError.lib e)) ∧
    (∀ b, (jsonDecode reader v).2 = none → assertBasicI (jsonDecode reader v).1 = some b →
      b.GetCode ≠ 0 →
      (ClientRest.decode jsonDecode assertBasicI reader v).2 =
        some (RestError.text ("code: " ++ toString b.GetCode ++ ", msg: " ++ b.GetMsg))) ∧
    (∀ b, (jsonDecode reader v).2 = none → assertBasicI (jsonDecode reader v).1 = some b →
      b.GetCode = 0 → (ClientRest.decode jsonDecode assertBasicI reader v).2 = none) ∧
    ((jsonDecode reader v).2 = none → assertBasicI (jsonDecode reader v).1 = none →
      (ClientRest.decode jsonDecode assertBasicI reader v).2 = none) ∧
    (ClientRest.decode jsonDecode assertBasicI reader v).1 = (jsonDecode reader v).1 := by
  unfold ClientRest.decode
  rcases hj : jsonDecode reader v with ⟨v2, _ | e⟩
  · cases ha : assertBasicI v2 with
    | none => simp [ha]
    | some b =>
      by_cases hc : b.GetCode = 0
      · simp [ha, hc]
      · simp [ha, hc]
  · simp

/-- The error text for the venue code 50001. -/
theorem decode_error_text :
    (ClientRest.decode (fun (_ : Bytes) (v : responses.Basic) => (v, (none : Option String)))
        (fun v => some v.toBasicI) [] { Code := 50001, Msg := "Service unavailable" }).2 =
      some (RestError.text "code: 50001, msg: Service unavailable") := by
  rfl

/-! ## Envelope code and the endpoint methods -/

/-- The methods of `SubAccount` and `TradeData` end in `c.client.decode`: when the
venue answers and the decoded response exposes an envelope code other than 0, the
error they return is not `nil`. -/
theorem call_reports_envelope_code {Req V Err : Type} (std : GoStd) (http : HttpEnv Err)
    (codec : Codec Req V Err) (c : ClientRest) (now : Int) (method p : String)
    (isPrivate : Bool) (params : List Params) (r : Request) (res : Response)
    (b : responses.BasicI)
    (hsent : c.Do std http now method p isPrivate params = DoResult.sent r (Except.ok res))
    (hdec : (codec.jsonDecode res.Body codec.zero).2 = none)
    (hb : codec.assertBasicI (codec.jsonDecode res.Body codec.zero).1 = some b)
    (hcode : b.GetCode ≠ 0) :
    c.call std http codec now method p isPrivate params =
      CallResult.returned (codec.jsonDecode res.Body codec.zero).1
        (some (RestError.text ("code: " ++ toString b.GetCode ++ ", msg: " ++ b.GetMsg))) := by
  unfold ClientRest.call
  rw [hsent]
  have h := decode_error_iff codec.jsonDecode codec.assertBasicI res.Body codec.zero
  simp only [h.2.2.1 b hdec hb hcode, h.2.2.2.2.2]

/-- Claim C15, at `ClientRest.Status`: the venue answers the status request with
status 200 and an envelope of code 1; `Status` decodes it with the plain JSON
decoder and returns a `nil` error, where `SubAccount.ViewList` and
`TradeData.GetSupportCoin`, which end in `c.client.decode`, return the error
`code: 1, msg: venue error` on the same answer. -/
theorem Status_ignores_envelope_code :
    exampleClient.Status exampleStd (exampleHttp [1]) exampleCodec 0 [] =
      CallResult.returned { Code := 1, Msg := "venue error" } none ∧
    SubAccount.ViewList exampleStd (exampleHttp [1]) exampleCodec { client := exampleClient } 0
        [] =
      CallResult.returned { Code := 1, Msg := "venue error" }
        (some (RestError.text "code: 1, msg: venue error")) ∧
    TradeData.GetSupportCoin exampleStd (exampleHttp [1]) exampleCodec
        { client := exampleClient } 0 =
      CallResult.returned { Code := 1, Msg := "venue error" }
        (some (RestError.text "code: 1, msg: venue error")) := by
  refine ⟨rfl, rfl, rfl⟩

/-! ## Determinism of the signature -/

theorem ByteArray_toList_loop (l : List UInt8) :
    ∀ (n i : Nat) (r : List UInt8), n = l.length - i → i ≤ l.length →
      ByteArray.toList.loop (ByteArray.mk (Array.mk l)) i r = r.reverse ++ l.drop i := by
  intro n
  induction n with
  | zero =>
    intro i r hn hi
    have hil : i = l.length := by omega
    subst hil
    unfold ByteArray.toList.loop
    simp [ByteArray.size]
  | succ k ih =>
    intro i r hn hi
    have hlt : i < l.length := by omega
    unfold ByteArray.toList.loop
    have hsz : i < (ByteArray.mk (Array.mk l)).size := by simpa [ByteArray.size] using hlt
    rw [if_pos hsz, ih (i + 1) _ (by omega) (by omega)]
    have hget : (ByteArray.mk (Array.mk l)).get! i = l[i] := by
      simp [ByteArray.get!, hlt, getElem!_pos]
    rw [hget, List.reverse_cons, List.append_assoc, List.singleton_append]
    congr 1
    exact (List.drop_eq_getElem_cons hlt).symm

/-- The bytes of a string are the UTF-8 encodings of its characters, in order. -/
theorem stringBytes_eq (s : String) :
    stringBytes s = (s.data.flatMap String.utf8EncodeChar).map UInt8.toNat := by
  unfold stringBytes String.toUTF8 ByteArray.toList
  rw [ByteArray_toList_loop _ _ 0 [] rfl (Nat.zero_le _)]
  simp

theorem String_append_right_cancel (a b x : String) (h : a ++ x = b ++ x) : a = b := by
  have h2 := congrArg String.data h
  rw [String.data_append, String.data_append] at h2
  exact String.ext (List.append_cancel_right h2)

theorem String_append_left_cancel (a b x : String) (h : x ++ a = x ++ b) : a = b := by
  have h2 := congrArg String.data h
  rw [String.data_append, String.data_append] at h2
  exact String.ext (List.append_cancel_left h2)

/-- Two request tuples that differ in exactly one of timestamp, method, path and
body have different canonical strings. -/
theorem canonical_ne_of_one_differs (ts1 ts2 m1 m2 p1 p2 b1 b2 : String)
    (hone : (ts1 ≠ ts2 ∧ m1 = m2 ∧ p1 = p2 ∧ b1 = b2) ∨
      (ts1 = ts2 ∧ m1 ≠ m2 ∧ p1 = p2 ∧ b1 = b2) ∨
      (ts1 = ts2 ∧ m1 = m2 ∧ p1 ≠ p2 ∧ b1 = b2) ∨
      (ts1 = ts2 ∧ m1 = m2 ∧ p1 = p2 ∧ b1 ≠ b2)) :
    ts1 ++ m1 ++ p1 ++ b1 ≠ ts2 ++ m2 ++ p2 ++ b2 := by
  intro heq
  rcases hone with ⟨hne, rfl, rfl, rfl⟩ | ⟨rfl, hne, rfl, rfl⟩ | ⟨rfl, rfl, hne, rfl⟩ |
    ⟨rfl, rfl, rfl, hne⟩
  · exact hne (String_append_right_cancel _ _ _ (String_append_right_cancel _ _ _
      (String_append_right_cancel _ _ _ heq)))
  · exact hne (String_append_left_cancel _ _ _ (String_append_right_cancel _ _ _
      (String_append_right_cancel _ _ _ heq)))
  · exact hne (String_append_left_cancel _ _ _ (String_append_right_cancel _ _ _ heq))
  · exact hne (String_append_left_cancel _ _ _ heq)

/-- Claim C11: for a fixed secret key the signature `sign` returns is the function
`signatureOf` of the timestamp it returns and of method, path and body, so two
calls with the same secret that agree on the four give the same signature; two
tuples that differ in exactly one of the four have different canonical strings,
and their signatures differ unless the digest chain (bytes, HMAC-SHA256, Base64)
collides on these two strings. -/
theorem sign_deterministic (std : GoStd) (key : Bytes) (ts1 ts2 m1 m2 p1 p2 b1 b2 : String)
    (hone : (ts1 ≠ ts2 ∧ m1 = m2 ∧ p1 = p2 ∧ b1 = b2) ∨
      (ts1 = ts2 ∧ m1 ≠ m2 ∧ p1 = p2 ∧ b1 = b2) ∨
      (ts1 = ts2 ∧ m1 = m2 ∧ p1 ≠ p2 ∧ b1 = b2) ∨
      (ts1 = ts2 ∧ m1 = m2 ∧ p1 = p2 ∧ b1 ≠ b2))
    (hnc : signatureOf std key ts1 m1 p1 b1 = signatureOf std key ts2 m2 p2 b2 →
      ts1 ++ m1 ++ p1 ++ b1 = ts2 ++ m2 ++ p2 ++ b2) :
    (∀ (c : ClientRest) (now : Int) (method path body : String), c.secretKey = key →
      (c.sign std now method path body).2 =
        signatureOf std key (c.sign std now method path body).1 method path body) ∧
    (∀ (c c2 : ClientRest) (now now2 : Int) (method path body : String),
      c.secretKey = key → c2.secretKey = key →
      (c.sign std now method path body).1 = (c2.sign std now2 method path body).1 →
      (c.sign std now method path body).2 = (c2.sign std now2 method path body).2) ∧
    ts1 ++ m1 ++ p1 ++ b1 ≠ ts2 ++ m2 ++ p2 ++ b2 ∧
    signatureOf std key ts1 m1 p1 b1 ≠ signatureOf std key ts2 m2 p2 b2 := by
  have hfun : ∀ (c : ClientRest) (now : Int) (method path body : String), c.secretKey = key →
      (c.sign std now method path body).2 =
        signatureOf std key (c.sign std now method path body).1 method path body := by
    intro c now method path body hk
    subst hk
    rfl
  have hne := canonical_ne_of_one_differs ts1 ts2 m1 m2 p1 p2 b1 b2 hone
  refine ⟨hfun, ?_, hne, fun h => hne (hnc h)⟩
  intro c c2 now now2 method path body hk hk2 hts
  rw [hfun c now method path body hk, hfun c2 now2 method path body hk2, hts]

/-- Witness of `sign_deterministic`: two timestamps one millisecond apart, same
request. -/
theorem sign_deterministic_witness :
    signatureOf exampleStd [1, 2, 3] "2020-12-08T09:08:57.715Z" "GET" "/api/v5/account/balance"
        "" ≠
      signatureOf exampleStd [1, 2, 3] "2020-12-08T09:08:57.716Z" "GET"
        "/api/v5/account/balance" "" :=
  (sign_deterministic exampleStd [1, 2, 3] "2020-12-08T09:08:57.715Z"
    "2020-12-08T09:08:57.716Z" "GET" "GET" "/api/v5/account/balance" "/api/v5/account/balance"
    "" "" (Or.inl (by decide))
    (by
      intro h
      rw [signatureOf, signatureOf, stringBytes_eq, stringBytes_eq] at h
      revert h
      decide)).2.2.2

/-! ## Shape of the timestamp -/

theorem digitChar_isDigit (n : Nat) :
    48 ≤ (digitChar n).toNat ∧ (digitChar n).toNat ≤ 57 := by
  unfold digitChar
  have h : n % 10 < 10 := Nat.mod_lt _ (by decide)
  generalize n % 10 = k at h
  interval_cases k <;> decide

theorem hasShape_append (p1 p2 s1 s2 : List Char) (h1 : hasShape p1 s1 = true)
    (h2 : hasShape p2 s2 = true) : hasShape (p1 ++ p2) (s1 ++ s2) = true := by
  induction p1 generalizing s1 with
  | nil =>
    cases s1 with
    | nil => simpa using h2
    | cons a t => simp [hasShape] at h1
  | cons p ps ih =>
    cases s1 with
    | nil => simp [hasShape] at h1
    | cons a t =>
      simp only [hasShape, Bool.and_eq_true] at h1
      simp only [List.cons_append, hasShape, Bool.and_eq_true]
      exact ⟨h1.1, ih t h1.2⟩

theorem appendInt_two_shape (x : Int) (h0 : 0 ≤ x) (h1 : x < 100) :
    hasShape ['d', 'd'] (appendInt x 2) = true := by
  have hu : x.natAbs < 100 := by omega
  have hneg : ¬ x < 0 := by omega
  simp [appendInt, hu, hneg, hasShape, digitChar_isDigit]

theorem appendInt_four_shape (x : Int) (h0 : 0 ≤ x) (h1 : x < 10000) :
    hasShape ['d', 'd', 'd', 'd'] (appendInt x 4) = true := by
  have hu : x.natAbs < 10000 := by omega
  have hneg : ¬ x < 0 := by omega
  simp [appendInt, hu, hneg, hasShape, digitChar_isDigit]

/-- The calendar fields below the year are in their ranges at every instant. -/
theorem civilOf_bounds (t : Int) :
    (1 ≤ (civilOf t).month ∧ (civilOf t).month < 13) ∧
    (1 ≤ (civilOf t).day ∧ (civilOf t).day < 32) ∧
    (0 ≤ (civilOf t).hour ∧ (civilOf t).hour < 24) ∧
    (0 ≤ (civilOf t).minute ∧ (civilOf t).minute < 60) ∧
    (0 ≤ (civilOf t).second ∧ (civilOf t).second < 60) ∧
    (0 ≤ (civilOf t).nanosecond ∧ (civilOf t).nanosecond < 1000000000) := by
  simp only [civilOf]
  refine ⟨?_, ?_, ?_, ?_, ?_, ?_⟩
  · split_ifs <;> omega
  · omega
  · omega
  · omega
  · omega
  · omega

theorem year_bounds_aux (z era doe yoe y doy mp m : Int)
    (hz0 : 719468 ≤ z) (hz1 : z ≤ 3652364)
    (hera : era = z / 146097) (hdoe : doe = z % 146097)
    (hyoe : yoe = (doe - doe / 1460 + doe / 36524 - doe / 146096) / 365)
    (hy : y = yoe + era * 400)
    (hdoy : doy = doe - (365 * yoe + yoe / 4 - yoe / 100))
    (hmp : mp = (5 * doy + 2) / 153)
    (hm : m = if mp < 10 then mp + 3 else mp - 9) :
    1970 ≤ (if m ≤ 2 then y + 1 else y) ∧ (if m ≤ 2 then y + 1 else y) < 10000 := by
  have he : 4 ≤ era ∧ era ≤ 24 := by omega
  have hd : 0 ≤ doe ∧ doe ≤ 146096 := by omega
  have hyo : 0 ≤ yoe ∧ yoe ≤ 399 := by omega
  have hlow : era = 4 → 369 ≤ yoe := by intro h; omega
  have hlow2 : era = 4 → yoe = 369 → m ≤ 2 := by
    intro h h2
    subst hm
    split_ifs <;> omega
  have hhigh : era = 24 → yoe = 399 → ¬ m ≤ 2 := by
    intro h h2
    subst hm
    split_ifs <;> omega
  constructor
  · split_ifs with h
    · by_cases h4 : era = 4
      · have := hlow h4; omega
      · omega
    · by_cases h4 : era = 4
      · have := hlow h4
        by_cases h369 : yoe = 369
        · exact absurd (hlow2 h4 h369) h
        · omega
      · omega
  · split_ifs with h
    · by_cases h24 : era = 24
      · by_cases h399 : yoe = 399
        · exact absurd h (hhigh h24 h399)
        · omega
      · omega
    · omega

/-- From 1970-01-01T00:00:00Z to the last nanosecond of the year 9999 the year has
four digits. -/
theorem civilOf_year_bounds (t : Int) (h0 : 0 ≤ t) (h1 : t < 253402300800000000000) :
    1970 ≤ (civilOf t).year ∧ (civilOf t).year < 10000 := by
  have hz0 : 719468 ≤ t / 1000000000 / 86400 + 719468 := by omega
  have hz1 : t / 1000000000 / 86400 + 719468 ≤ 3652364 := by omega
  exact year_bounds_aux (t / 1000000000 / 86400 + 719468) _ _ _ _ _ _ _ hz0 hz1 rfl rfl rfl rfl
    rfl rfl rfl

theorem appendNano_eq_fracMillis (n : Nat) :
    appendNano n 3 true = fracMillis (n / 1000000) := by
  by_cases h0 : n = 0
  · subst h0
    decide
  · have h1 : n / 1000000 / 100 = n / 100000000 := by omega
    have h2 : n / 1000000 / 10 = n / 10000000 := by omega
    simp [appendNano, fracMillis, nanoDigits, h0, h1, h2]

set_option maxRecDepth 100000 in
/-- The fractional field by the decimal digits of the milliseconds. -/
theorem fracMillis_shape :
    ∀ ms, ms < 1000 →
      (ms % 10 ≠ 0 → hasShape ['.', 'd', 'd', 'd'] (fracMillis ms) = true) ∧
      (ms % 10 = 0 → ms % 100 ≠ 0 → hasShape ['.', 'd', 'd'] (fracMillis ms) = true) ∧
      (ms % 100 = 0 → ms ≠ 0 → hasShape ['.', 'd'] (fracMillis ms) = true) ∧
      (ms = 0 → fracMillis ms = []) := by
  decide

/-- The characters of the timestamp layout at an instant, field by field. -/
theorem goTimeFormat_fields (t : Int) :
    (goTimeFormat "2006-01-02T15:04:05.999Z07:00" t).data =
      appendInt (civilOf t).year 4 ++ (['-'] ++ (appendInt (civilOf t).month 2 ++ (['-'] ++
        (appendInt (civilOf t).day 2 ++ (['T'] ++ (appendInt (civilOf t).hour 2 ++ ([':'] ++
          (appendInt (civilOf t).minute 2 ++ ([':'] ++ (appendInt (civilOf t).second 2 ++
            (fracMillis ((civilOf t).nanosecond.toNat / 1000000) ++ ['Z']))))))))))) := by
  rw [← appendNano_eq_fracMillis]
  rfl

/-- The timestamp up to the seconds, the fractional field `frac` of shape `fp`, and
the suffix `Z`. -/
theorem timestamp_shape_aux (t : Int) (h0 : 0 ≤ t) (h1 : t < 253402300800000000000)
    (fp : List Char)
    (hf : hasShape fp (fracMillis ((civilOf t).nanosecond.toNat / 1000000)) = true) :
    hasShape ("dddd-dd-ddTdd:dd:dd".data ++ (fp ++ ['Z']))
      (goTimeFormat "2006-01-02T15:04:05.999Z07:00" t).data = true := by
  obtain ⟨hmo, hda, hho, hmi, hse, _⟩ := civilOf_bounds t
  obtain ⟨hy0, hy1⟩ := civilOf_year_bounds t h0 h1
  rw [goTimeFormat_fields]
  show hasShape (['d', 'd', 'd', 'd'] ++ (['-'] ++ (['d', 'd'] ++ (['-'] ++ (['d', 'd'] ++
    (['T'] ++ (['d', 'd'] ++ ([':'] ++ (['d', 'd'] ++ ([':'] ++ (['d', 'd'] ++
      (fp ++ ['Z']))))))))))))
    _ = true
  refine hasShape_append _ _ _ _ (appendInt_four_shape _ (by omega) hy1) ?_
  refine hasShape_append _ _ _ _ (by decide) ?_
  refine hasShape_append _ _ _ _ (appendInt_two_shape _ (by omega) (by omega)) ?_
  refine hasShape_append _ _ _ _ (by decide) ?_
  refine hasShape_append _ _ _ _ (appendInt_two_shape _ (by omega) (by omega)) ?_
  refine hasShape_append _ _ _ _ (by decide) ?_
  refine hasShape_append _ _ _ _ (appendInt_two_shape _ hho.1 (by omega)) ?_
  refine hasShape_append _ _ _ _ (by decide) ?_
  refine hasShape_append _ _ _ _ (appendInt_two_shape _ hmi.1 (by omega)) ?_
  refine hasShape_append _ _ _ _ (by decide) ?_
  refine hasShape_append _ _ _ _ (appendInt_two_shape _ hse.1 (by omega)) ?_
  exact hasShape_append _ _ _ _ hf (by decide)

/-- Claim C12 as stated fails: at the instant 0 with offset 0 the timestamp is
`1970-01-01T00:00:00Z`, without fractional digits, and at 09:08:57 with an offset
of 120 ms it is `2020-12-08T09:08:57.12Z`, with two; neither has the shape
`YYYY-MM-DDTHH:MM:SS.mmmZ`. With 715 ms the three digits are there. -/
theorem sign_timestamp_not_three_digits :
    ((exampleClient.SetSystemTimeDiff 0).sign exampleStd 0 "GET" "/" "").1 =
      "1970-01-01T00:00:00Z" ∧
    hasShape "dddd-dd-ddTdd:dd:dd.dddZ".data "1970-01-01T00:00:00Z".data = false ∧
    ((exampleClient.SetSystemTimeDiff 120000000).sign exampleStd 1607418537000000000 "GET" "/"
        "").1 = "2020-12-08T09:08:57.12Z" ∧
    hasShape "dddd-dd-ddTdd:dd:dd.dddZ".data "2020-12-08T09:08:57.12Z".data = false ∧
    ((exampleClient.SetSystemTimeDiff 715000000).sign exampleStd 1607418537000000000 "GET" "/"
        "").1 = "2020-12-08T09:08:57.715Z" := by
  refine ⟨by decide, by decide, by decide, by decide, by decide⟩

/-- Claim C12, amended: for a clock instant `now` and a stored offset `d` with
`now + d` between 1970 and the end of the year 9999, the timestamp of `sign` is the
UTC rendering `YYYY-MM-DDTHH:MM:SS` of `now + d`, then the milliseconds of
`now + d` as a fraction with its trailing zeros cut (three digits when the
milliseconds do not end in 0, two or one when they end in one or two zeros, no
fraction and no dot when they are 0), then `Z`. -/
theorem sign_timestamp_shape (hmac : Bytes → Bytes → Bytes) (b64 : Bytes → String)
    (c : ClientRest) (now d : Int) (method path body : String)
    (h0 : 0 ≤ now + d) (h1 : now + d < 253402300800000000000) :
    ((c.SetSystemTimeDiff d).sign (goStd hmac b64) now method path body).1 =
      goTimeFormat "2006-01-02T15:04:05.999Z07:00" (now + d) ∧
    (((now + d) % 1000000000).toNat / 1000000 % 10 ≠ 0 →
      hasShape "dddd-dd-ddTdd:dd:dd.dddZ".data
        ((c.SetSystemTimeDiff d).sign (goStd hmac b64) now method path body).1.data = true) ∧
    (((now + d) % 1000000000).toNat / 1000000 % 10 = 0 →
      ((now + d) % 1000000000).toNat / 1000000 % 100 ≠ 0 →
      hasShape "dddd-dd-ddTdd:dd:dd.ddZ".data
        ((c.SetSystemTimeDiff d).sign (goStd hmac b64) now method path body).1.data = true) ∧
    (((now + d) % 1000000000).toNat / 1000000 % 100 = 0 →
      ((now + d) % 1000000000).toNat / 1000000 ≠ 0 →
      hasShape "dddd-dd-ddTdd:dd:dd.dZ".data
        ((c.SetSystemTimeDiff d).sign (goStd hmac b64) now method path body).1.data = true) ∧
    (((now + d) % 1000000000).toNat / 1000000 = 0 →
      hasShape "dddd-dd-ddTdd:dd:ddZ".data
        ((c.SetSystemTimeDiff d).sign (goStd hmac b64) now method path body).1.data = true) := by
  have hts : ((c.SetSystemTimeDiff d).sign (goStd hmac b64) now method path body).1 =
      goTimeFormat "2006-01-02T15:04:05.999Z07:00" (now + d) := rfl
  have hns : (civilOf (now + d)).nanosecond = (now + d) % 1000000000 := rfl
  have hlt : ((now + d) % 1000000000).toNat / 1000000 < 1000 := by omega
  obtain ⟨f3, f2, f1, f0⟩ := fracMillis_shape _ hlt
  rw [hts]
  refine ⟨rfl, fun h => ?_, fun h h2 => ?_, fun h h2 => ?_, fun h => ?_⟩
  · exact timestamp_shape_aux (now + d) h0 h1 ['.', 'd', 'd', 'd'] (by rw [hns]; exact f3 h)
  · exact timestamp_shape_aux (now + d) h0 h1 ['.', 'd', 'd'] (by rw [hns]; exact f2 h h2)
  · exact timestamp_shape_aux (now + d) h0 h1 ['.', 'd'] (by rw [hns]; exact f1 h h2)
  · exact timestamp_shape_aux (now + d) h0 h1 [] (by rw [hns, f0 h]; rfl)

/-- Witness of `sign_timestamp_shape`: 2020-12-08T09:08:57.715Z. -/
theorem sign_timestamp_shape_witness :
    hasShape "dddd-dd-ddTdd:dd:dd.dddZ".data
      ((exampleClient.SetSystemTimeDiff 715000000).sign
        (goStd (fun _ msg => msg) (fun b => String.mk (b.map Char.ofNat)))
        1607418537000000000 "GET" "/" "").1.data = true :=
  (sign_timestamp_shape (fun _ msg => msg) (fun b => String.mk (b.map Char.ofNat))
    exampleClient 1607418537000000000 715000000 "GET" "/" "" (by decide) (by decide)).2.1
    (by decide)

end Okex
